import Mathlib

/-!
Verification of the resource-ledger core of the Deadlock & Resource Management
Simulator: the data model (`models/process.py`, `models/resource.py`,
`models/system_state.py`), the Banker safety algorithm and admission controller
(`algorithms/avoidance.py`), the Work/Finish detection pass
(`algorithms/detection.py`), and the recovery engine (`algorithms/recovery.py`).

Embedding conventions:
* Python ints are `Int`; vectors are `List Int`; matrices are `List (List Int)`.
* The `SystemState` property caches (`_allocation_matrix`, ...) are modelled as
  `Option` fields, mutated exactly where the Python mutates them in place and
  cleared by `refresh_matrices`.  Python's memoize-on-read (a property read
  stores the freshly built value into the cache) is not modelled: at build time
  the stored value equals the derived value, and no operation modelled here
  reads a getter after mutating the underlying data without either refreshing
  or updating the cache in place, so every getter read inside the modelled
  operations yields the same value either way.
* Python list indexing is modelled with `List.getD _ _ 0` / `List.set`; the
  theorems below carry in-range and length hypotheses so that the model and the
  Python (which would raise `IndexError` out of range) agree on the covered
  states.
* An `AssertionError` raised by `SystemState.assert_resource_conservation` is
  modelled as `Except.error`; ordinary returns are `Except.ok`.
-/

inductive ProcessState where
  | READY
  | RUNNING
  | WAITING
  | FINISHED
  | DEADLOCKED
  | TERMINATED
deriving DecidableEq, Repr, Inhabited

/-- Mirrors `models/process.py` `Process` (the metrics-only fields used for
waiting-time bookkeeping are not part of the provided sources and play no role
in the claims). -/
structure Process where
  pid : Int
  priority : Int
  arrival_step : Int
  max_demand : List Int
  allocation : List Int
  state : ProcessState
  current_request : List Int
deriving DecidableEq, Repr, Inhabited

/-- Mirrors `models/resource.py` `Resource`. -/
structure Resource where
  type_id : Int
  total_instances : Int
  available_instances : Int
deriving DecidableEq, Repr, Inhabited

/-- Mirrors `models/system_state.py` `SystemState`: the process and resource
lists plus the five cached derived matrices/vectors (`None` = not built). -/
structure SystemState where
  processes : List Process
  resources : List Resource
  allocCache : Option (List (List Int)) := none
  maxCache : Option (List (List Int)) := none
  availCache : Option (List Int) := none
  requestCache : Option (List (List Int)) := none
  needCache : Option (List (List Int)) := none
deriving DecidableEq, Repr, Inhabited

/-- Snapshot dictionary built by `SystemState.snapshot`. -/
structure Snapshot where
  allocation_matrix : List (List Int)
  available_vector : List Int
  request_matrix : List (List Int)
  need_matrix : List (List Int)
  process_states : List (Int × ProcessState × List Int × List Int)
deriving DecidableEq, Repr, Inhabited

/-- Componentwise `<=` of equal-length numpy vectors (`np.all (a <= b)`). -/
def vecLe (a b : List Int) : Bool :=
  (List.zip a b).all (fun q => q.1 ≤ q.2)

/-- Componentwise sum of equal-length numpy vectors (`work += alloc`). -/
def vecAdd (a b : List Int) : List Int :=
  List.zipWith (· + ·) a b

/-- Componentwise matrix difference (`Max - Allocation`). -/
def matSub (a b : List (List Int)) : List (List Int) :=
  List.zipWith (fun ra rb => List.zipWith (· - ·) ra rb) a b

/-- Column sum of a matrix (`np.sum(m[:, j])`). -/
def colSum (m : List (List Int)) (j : Nat) : Int :=
  (m.map (fun row => row.getD j 0)).sum

/-- `SystemState._build_allocation_matrix`. -/
def buildAllocationMatrix (s : SystemState) : List (List Int) :=
  s.processes.map (fun p => (List.range s.resources.length).map (fun j => p.allocation.getD j 0))

/-- `SystemState._build_max_demand_matrix`. -/
def buildMaxDemandMatrix (s : SystemState) : List (List Int) :=
  s.processes.map (fun p => (List.range s.resources.length).map (fun j => p.max_demand.getD j 0))

/-- `SystemState._build_available_vector`. -/
def buildAvailableVector (s : SystemState) : List Int :=
  s.resources.map (·.available_instances)

/-- `SystemState._build_request_matrix`. -/
def buildRequestMatrix (s : SystemState) : List (List Int) :=
  s.processes.map (fun p => (List.range s.resources.length).map (fun j => p.current_request.getD j 0))

/-- Property `SystemState.allocation_matrix`: the cache if built, else derived. -/
def allocation_matrix (s : SystemState) : List (List Int) :=
  s.allocCache.getD (buildAllocationMatrix s)

/-- Property `SystemState.max_demand_matrix`. -/
def max_demand_matrix (s : SystemState) : List (List Int) :=
  s.maxCache.getD (buildMaxDemandMatrix s)

/-- Property `SystemState.available_vector`. -/
def available_vector (s : SystemState) : List Int :=
  s.availCache.getD (buildAvailableVector s)

/-- Property `SystemState.request_matrix`. -/
def request_matrix (s : SystemState) : List (List Int) :=
  s.requestCache.getD (buildRequestMatrix s)

/-- Property `SystemState.need_matrix` (`Max - Allocation`, via the getters). -/
def need_matrix (s : SystemState) : List (List Int) :=
  s.needCache.getD (matSub (max_demand_matrix s) (allocation_matrix s))

/-- `SystemState.refresh_matrices`: drop every cache. -/
def refresh_matrices (s : SystemState) : SystemState :=
  { s with allocCache := none, maxCache := none, availCache := none,
           requestCache := none, needCache := none }

/-- `SystemState.snapshot`. -/
def snapshot (s : SystemState) : Snapshot :=
  { allocation_matrix := allocation_matrix s
    available_vector := available_vector s
    request_matrix := request_matrix s
    need_matrix := need_matrix s
    process_states := s.processes.map (fun p => (p.pid, p.state, p.allocation, p.current_request)) }

/-- `SystemState.assert_resource_conservation` as a boolean check: for every
resource index, column-sum of `allocation_matrix` plus `available_vector` entry
equals `total_instances`, and the available entry is nonnegative.  The Python
raises `AssertionError` when this is `false`. -/
def assert_resource_conservation (s : SystemState) : Bool :=
  (List.range s.resources.length).all (fun r =>
    let allocated := colSum (allocation_matrix s) r
    let available := (available_vector s).getD r 0
    let total := (s.resources.getD r default).total_instances
    decide (allocated + available = total) && decide (0 ≤ available))

/-- Replace process `i` by `f` of it (in-place mutation of a list element). -/
def updateProcess (s : SystemState) (i : Nat) (f : Process → Process) : SystemState :=
  { s with processes :=
      match s.processes.get? i with
      | some p => s.processes.set i (f p)
      | none => s.processes }

/-- Modelled from the spec: `Process.enter_waiting` is invoked by
`handle_request` but its definition is not among the provided sources; per the
spec the process "transitions to WAITING" (its waiting-time bookkeeping for the
metrics layer is outside the ledger state and not modelled). -/
def enter_waiting (s : SystemState) (i : Nat) : SystemState :=
  updateProcess s i (fun p => { p with state := ProcessState.WAITING })

/-- Modelled from the spec: `Process.exit_waiting` is invoked by
`handle_request` but its definition is not among the provided sources; it only
records waiting time for the metrics layer (the caller itself sets the state to
`READY` immediately afterwards), so on ledger state it is the identity. -/
def exit_waiting (s : SystemState) (_i : Nat) : SystemState :=
  s

/-- Candidate search shared by the safety and detection scans: the first index
in `idxs` that is unfinished and whose row of `m` is componentwise `<= work`. -/
def wfFind (m : List (List Int)) (idxs : List Nat) (finish : List Bool) (work : List Int) :
    Option Nat :=
  idxs.find? (fun i => !(finish.getD i true) && vecLe (m.getD i []) work)

/-- The restart-on-progress Work/Finish loop shared by `is_safe_state` and
`detect_deadlock`: while some candidate exists, add its allocation row to
`work`, mark it finished, append its pid to the sequence, and restart the scan.
`fuel` bounds the number of successful rounds; every round finishes one
previously-unfinished index, so any `fuel` at least the number of unfinished
indices reaches the no-candidate fixpoint. -/
def wfLoop (m allocM : List (List Int)) (pids : List Int) (idxs : List Nat) :
    Nat → List Int → List Bool → List Int → List Int × List Bool × List Int
  | 0, work, finish, seq => (work, finish, seq)
  | fuel + 1, work, finish, seq =>
    match wfFind m idxs finish work with
    | none => (work, finish, seq)
    | some i =>
        wfLoop m allocM pids idxs fuel (vecAdd work (allocM.getD i []))
          (finish.set i true) (seq ++ [pids.getD i 0])

/-- `algorithms/avoidance.py` `is_safe_state`: Banker's safety check.  Active
processes are those not `FINISHED`/`TERMINATED`; the scan uses the `Need`
matrix, restarts from the beginning after every find, and the state is safe iff
every active process finishes. -/
def is_safe_state (s : SystemState) : Bool × Option (List Int) :=
  let work := available_vector s
  let finish := List.replicate s.processes.length false
  let active := (List.range s.processes.length).filter (fun i =>
    let st := (s.processes.getD i default).state
    st != ProcessState.FINISHED && st != ProcessState.TERMINATED)
  let needM := need_matrix s
  let allocM := allocation_matrix s
  let pids := s.processes.map (·.pid)
  let out := wfLoop needM allocM pids active s.processes.length work finish []
  let all_finished := active.all (fun i => out.2.1.getD i false)
  if all_finished then (true, some out.2.2) else (false, none)

/-- Set one entry of the process's `current_request` list. -/
def setCurrentRequestEntry (s : SystemState) (i rt : Nat) (v : Int) : SystemState :=
  updateProcess s i (fun p => { p with current_request := p.current_request.set rt v })

/-- Set one entry of the process's `allocation` list. -/
def setAllocationEntry (s : SystemState) (i rt : Nat) (v : Int) : SystemState :=
  updateProcess s i (fun p => { p with allocation := p.allocation.set rt v })

/-- Set one resource's `available_instances` field. -/
def setAvailableInstances (s : SystemState) (rt : Nat) (v : Int) : SystemState :=
  { s with resources :=
      match s.resources.get? rt with
      | some r => s.resources.set rt { r with available_instances := v }
      | none => s.resources }

/-- Render the safe sequence as in the grant message
(`" -> ".join(f"P{pid}" ...)`). -/
def seqString (seq : List Int) : String :=
  String.intercalate " -> " (seq.map (fun pid => s!"P{pid}"))

/-- Denial message of the exceeds-need validation branch. -/
def exceedsNeedMsg (amount need : Int) : String :=
  s!"Request exceeds need (requested: {amount}, need: {need})"

/-- Denial message of the non-positive-amount validation branch. -/
def invalidAmountMsg (amount : Int) : String :=
  s!"Invalid request amount: {amount}"

/-- Denial message of the insufficient-availability branch. -/
def insufficientMsg (amount available : Int) : String :=
  s!"Insufficient resources (requested: {amount}, available: {available}) - Process enters WAITING"

/-- `algorithms/avoidance.py` `handle_request`: the avoidance-policy admission
controller, acting on the process at index `pidx` of the ledger's process list
(the Python takes the aliased `Process` object itself).  `current_step` only
feeds the unmodelled waiting-time bookkeeping and is omitted.  Returns
`Except.error` exactly when the conservation assertion after a grant raises. -/
def handle_request (pidx rt : Nat) (amount : Int) (s : SystemState) :
    Except String (Bool × String × SystemState) :=
  let process := s.processes.getD pidx default
  let need := process.max_demand.getD rt 0 - process.allocation.getD rt 0
  if amount > need then
    .ok (false, exceedsNeedMsg amount need, s)
  else if amount ≤ 0 then
    .ok (false, invalidAmountMsg amount, s)
  else
    let available := (s.resources.getD rt default).available_instances
    if amount > available then
      let s1 := setCurrentRequestEntry s pidx rt amount
      let s2 := enter_waiting s1 pidx
      .ok (false, insufficientMsg amount available, s2)
    else
      let original_allocation := process.allocation.getD rt 0
      let original_available := available
      let s1 := setAllocationEntry s pidx rt (original_allocation + amount)
      let s2 := setAvailableInstances s1 rt (original_available - amount)
      let s3 := refresh_matrices s2
      let res := is_safe_state s3
      if res.1 then
        let s4 := setCurrentRequestEntry s3 pidx rt 0
        let s5 :=
          if (s4.processes.getD pidx default).state = ProcessState.WAITING then
            updateProcess (exit_waiting s4 pidx) pidx
              (fun p => { p with state := ProcessState.READY })
          else s4
        if assert_resource_conservation s5 then
          let seq_str := seqString (res.2.getD [])
          .ok (true, s!"GRANTED (Safe state maintained, sequence: {seq_str})", s5)
        else
          .error s!"Resource conservation violated after granting R{rt} to P{pidx}"
      else
        let s4 := setAllocationEntry s3 pidx rt original_allocation
        let s5 := setAvailableInstances s4 rt original_available
        let s6 := setCurrentRequestEntry s5 pidx rt amount
        let s7 := enter_waiting s6 pidx
        let s8 := refresh_matrices s7
        .ok (false, "DENIED (Unsafe state detected) - Process enters WAITING, request remains pending", s8)

/-- `algorithms/detection.py` `detect_deadlock`: Work/Finish detection over the
`Request` matrix.  `FINISHED`/`TERMINATED` processes start finished; every
process left unfinished at the fixpoint is reported deadlocked and its state is
set to `DEADLOCKED`.  Returns `(deadlock_exists, deadlocked_pids, new state)`. -/
def detect_deadlock (s : SystemState) : Bool × List Int × SystemState :=
  let np := s.processes.length
  let work := available_vector s
  let finish0 := s.processes.map (fun p =>
    p.state == ProcessState.FINISHED || p.state == ProcessState.TERMINATED)
  let reqM := request_matrix s
  let allocM := allocation_matrix s
  let pids := s.processes.map (·.pid)
  let out := wfLoop reqM allocM pids (List.range np) np work finish0 []
  let finish := out.2.1
  let deadIdx := (List.range np).filter (fun i => !(finish.getD i false))
  let deadlocked_pids := deadIdx.map (fun i => (s.processes.getD i default).pid)
  let procs := (List.range np).map (fun i =>
    let p := s.processes.getD i default
    if finish.getD i false then p else { p with state := ProcessState.DEADLOCKED })
  (!deadlocked_pids.isEmpty, deadlocked_pids, { s with processes := procs })

/-- `recovery.py` `select_victim` helper `get_priority` (missing pid gives 0). -/
def get_priority (s : SystemState) (pid : Int) : Int :=
  match s.processes.find? (fun p => p.pid == pid) with
  | some p => p.priority
  | none => 0

/-- `recovery.py` `select_victim` helper `count_resources` (row sum of the
allocation matrix at the first index whose pid matches; missing pid gives 0). -/
def count_resources (s : SystemState) (pid : Int) : Int :=
  match s.processes.findIdx? (fun p => p.pid == pid) with
  | some i => ((allocation_matrix s).getD i []).sum
  | none => 0

/-- `recovery.py` `select_victim` helper `get_arrival_step`. -/
def get_arrival_step (s : SystemState) (pid : Int) : Int :=
  match s.processes.find? (fun p => p.pid == pid) with
  | some p => p.arrival_step
  | none => 0

/-- Python `max(xs, key=f)`: the first element attaining the maximum key. -/
def maxByKey (f : Int → Int) (x : Int) (xs : List Int) : Int :=
  xs.foldl (fun best y => if f y > f best then y else best) x

/-- Python `min(xs, key=f)`: the first element attaining the minimum key. -/
def minByKey (f : Int → Int) (x : Int) (xs : List Int) : Int :=
  xs.foldl (fun best y => if f y < f best then y else best) x

/-- `algorithms/recovery.py` `select_victim` (unknown strategies recurse into
`"priority"`; that recursion is unfolded here). -/
def select_victim (deadlocked_pids : List Int) (s : SystemState) (strategy : String) : Int :=
  match deadlocked_pids with
  | [] => -1
  | x :: xs =>
    if strategy == "priority" then maxByKey (get_priority s) x xs
    else if strategy == "fewest_resources" then minByKey (count_resources s) x xs
    else if strategy == "youngest" then maxByKey (get_arrival_step s) x xs
    else maxByKey (get_priority s) x xs

/-- Victim description string built at the end of `terminate_process`. -/
def heldString (resources_held : List Int) : String :=
  String.intercalate ", "
    (((List.range resources_held.length).filter (fun i => 0 < resources_held.getD i 0)).map
      (fun i =>
        let h := resources_held.getD i 0
        s!"R{i}[{h}]"))

/-- The ledger state produced by `terminate_process` on the victim at
`process_idx`: the victim's allocation and request rows are zeroed (both the
cached matrices, in place, and the process fields), its state set `TERMINATED`,
every resource's `available_instances` recomputed as `total - column sum` of
the mutated allocation cache, and the caches refreshed. -/
def terminatedState (s : SystemState) (process_idx : Nat) : SystemState :=
  let nr := s.resources.length
  let process := s.processes.getD process_idx default
  let allocM1 := (allocation_matrix s).set process_idx (List.replicate nr 0)
  let reqM1 := (request_matrix s).set process_idx (List.replicate nr 0)
  let p1 := { process with
              allocation := List.replicate process.max_demand.length 0,
              current_request := List.replicate process.max_demand.length 0,
              state := ProcessState.TERMINATED }
  let procs := s.processes.set process_idx p1
  let newRes := (List.range nr).map (fun r =>
    let res := s.resources.getD r default
    { res with available_instances := res.total_instances - colSum allocM1 r })
  refresh_matrices
    { processes := procs, resources := newRes,
      allocCache := some allocM1, maxCache := s.maxCache, availCache := s.availCache,
      requestCache := some reqM1, needCache := s.needCache }

/-- `algorithms/recovery.py` `terminate_process`: builds `terminatedState` for
the victim and checks conservation (`Except.error` models the assertion
raising); a missing pid is a returned failure, not an exception. -/
def terminate_process (pid : Int) (s : SystemState) :
    Except String (Bool × String × SystemState) :=
  match s.processes.findIdx? (fun p => p.pid == pid) with
  | none => .ok (false, s!"Process P{pid} not found", s)
  | some process_idx =>
    let process := s.processes.getD process_idx default
    let resources_held := (allocation_matrix s).getD process_idx []
    let s1 := terminatedState s process_idx
    if assert_resource_conservation s1 then
      let held := heldString resources_held
      let prio := process.priority
      .ok (true, s!"Terminated P{pid} (priority={prio}, holding {held})", s1)
    else
      .error s!"Resource conservation violated after terminating P{pid}"

/-- The ledger state produced by a successful `preempt_resources`: the
victim's allocation is decremented (the cached matrix in place and the process
field), the cached available vector incremented (the `Resource` objects are
not touched), the cached need matrix incremented, and a `RUNNING`/`READY`
victim demoted to `WAITING`. -/
def preemptedState (s : SystemState) (process_idx rt : Nat) (amount : Int) : SystemState :=
  let allocM := allocation_matrix s
  let allocated := (allocM.getD process_idx []).getD rt 0
  let allocM1 := allocM.set process_idx
    ((allocM.getD process_idx []).set rt (allocated - amount))
  let p := s.processes.getD process_idx default
  let p1 := { p with allocation := p.allocation.set rt (p.allocation.getD rt 0 - amount) }
  let availV := available_vector s
  let availV1 := availV.set rt (availV.getD rt 0 + amount)
  let needM := need_matrix s
  let needRow := needM.getD process_idx []
  let needM1 := needM.set process_idx (needRow.set rt (needRow.getD rt 0 + amount))
  let p2 :=
    if p1.state = ProcessState.RUNNING ∨ p1.state = ProcessState.READY then
      { p1 with state := ProcessState.WAITING }
    else p1
  { s with
    processes := s.processes.set process_idx p2
    allocCache := some allocM1
    availCache := some availV1
    needCache := some needM1 }

/-- Failure message when the victim holds fewer instances than requested. -/
def preemptFailMsg (pid allocated : Int) (rt : Nat) (amount : Int) : String :=
  s!"P{pid} only has {allocated} of R{rt}, cannot preempt {amount}"

/-- Success message of `preempt_resources`. -/
def preemptOkMsg (rt : Nat) (amount pid now_holding : Int) : String :=
  s!"Preempted R{rt}[{amount}] from P{pid} (now holding {now_holding})"

/-- `algorithms/recovery.py` `preempt_resources`: fail (returned, not raised)
if the victim holds less than `amount`; otherwise take a snapshot first, build
`preemptedState`, and return success with that snapshot. -/
def preempt_resources (pid : Int) (rt : Nat) (amount : Int) (s : SystemState) :
    Bool × String × Option Snapshot × SystemState :=
  match s.processes.findIdx? (fun p => p.pid == pid) with
  | none => (false, s!"Process P{pid} not found", none, s)
  | some process_idx =>
    let allocated := ((allocation_matrix s).getD process_idx []).getD rt 0
    if allocated < amount then
      (false, preemptFailMsg pid allocated rt amount, none, s)
    else
      let snap := snapshot s
      let s1 := preemptedState s process_idx rt amount
      let now_holding := (s1.processes.getD process_idx default).allocation.getD rt 0
      (true, preemptOkMsg rt amount pid now_holding, some snap, s1)

/-- State reset performed by `recover_from_deadlock` once detection reports no
deadlock: every process still `DEADLOCKED` becomes `WAITING` if it has any
nonzero pending request, else `READY`. -/
def resetDeadlockedStates (s : SystemState) : SystemState :=
  { s with processes := s.processes.map (fun p =>
      if p.state = ProcessState.DEADLOCKED then
        if p.current_request.any (fun x => x != 0) then
          { p with state := ProcessState.WAITING }
        else
          { p with state := ProcessState.READY }
      else p) }

/-- The `while remaining_deadlocked:` loop of `recover_from_deadlock` for
`method = "terminate"`.  `none` models fuel exhaustion (the Python loop running
longer than `fuel` iterations); `some (Except.error _)` models the conservation
assertion inside `terminate_process` raising. -/
def recoverLoop :
    Nat → List Int → SystemState → List String →
    Option (Except String (Bool × List String × SystemState))
  | 0, _, _, _ => none
  | _ + 1, [], s, actions =>
    some (.ok (true, actions ++ ["All deadlocked processes terminated"], s))
  | fuel + 1, remaining@(_ :: _), s, actions =>
    let victim_pid := select_victim remaining s "priority"
    match terminate_process victim_pid s with
    | .error e => some (.error e)
    | .ok (success, message, s1) =>
      if !success then
        some (.ok (false, actions ++ [s!"FAILED: {message}"], s1))
      else
        let actions1 := actions ++ [s!"RECOVERY: {message}"]
        let out := detect_deadlock s1
        if !out.1 then
          some (.ok (true,
            actions1 ++ ["Deadlock resolved - system restored to safe state"],
            resetDeadlockedStates out.2.2))
        else
          recoverLoop fuel out.2.1 out.2.2 actions1

/-- `algorithms/recovery.py` `recover_from_deadlock`.  The termination loop is
run with fuel `processes.length + 1`; the theorems below prove this fuel is
never exhausted on well-formed ledgers, so the model coincides with the Python
`while` loop there. -/
def recover_from_deadlock (deadlocked_pids : List Int) (s : SystemState) (method : String) :
    Option (Except String (Bool × List String × SystemState)) :=
  if deadlocked_pids.isEmpty then
    some (.ok (false, ["No deadlocked processes to recover"], s))
  else if method == "terminate" then
    recoverLoop (s.processes.length + 1) deadlocked_pids s []
  else if method == "preempt" then
    some (.ok (false, ["Preemption strategy not fully implemented"], s))
  else
    some (.ok (false, [s!"Unknown recovery method: {method}"], s))

/-- Whether an action message is a victim-termination record (it carries the
`RECOVERY` prefix), phrased over the character list so that it is computable
inside the kernel. -/
def startsWithRecovery (a : String) : Bool :=
  "RECOVERY".data.isPrefixOf a.data

/-- Number of victim terminations recorded in a recovery action log (each loop
iteration that terminates a victim appends exactly one `RECOVERY:` action). -/
def numRecoveryActions (actions : List String) : Nat :=
  (actions.filter startsWithRecovery).length

/-- Every process's three vectors have one entry per resource type (the shape
the scenario loader guarantees and numpy assumes). -/
def lengthsOk (s : SystemState) : Prop :=
  ∀ p ∈ s.processes,
    p.allocation.length = s.resources.length ∧
    p.max_demand.length = s.resources.length ∧
    p.current_request.length = s.resources.length

/-- Every cache is either unbuilt or holds exactly the derived value (true
whenever the mandatory rebuild discipline has been followed). -/
def cachesCoherent (s : SystemState) : Prop :=
  (s.allocCache = none ∨ s.allocCache = some (buildAllocationMatrix s)) ∧
  (s.maxCache = none ∨ s.maxCache = some (buildMaxDemandMatrix s)) ∧
  (s.availCache = none ∨ s.availCache = some (buildAvailableVector s)) ∧
  (s.requestCache = none ∨ s.requestCache = some (buildRequestMatrix s)) ∧
  (s.needCache = none ∨
    s.needCache = some (matSub (buildMaxDemandMatrix s) (buildAllocationMatrix s)))

/-- Every allocation entry of every process is nonnegative. -/
def allocNonneg (s : SystemState) : Prop :=
  ∀ p ∈ s.processes, ∀ x ∈ p.allocation, 0 ≤ x

/-- Well-formed ledger: shapes agree, caches are coherent, allocations are
nonnegative, and the conservation check currently passes. -/
def ledgerWF (s : SystemState) : Prop :=
  lengthsOk s ∧ cachesCoherent s ∧ allocNonneg s ∧ assert_resource_conservation s = true

lemma getD_set_ne {α : Type} (l : List α) {i j : Nat} (h : i ≠ j) (v : α) (d : α) :
    (l.set i v).getD j d = l.getD j d := by
  simp [List.getD_eq_getElem?_getD, List.getElem?_set_ne h]

lemma getD_set_self {α : Type} (l : List α) {i : Nat} (h : i < l.length) (v : α) (d : α) :
    (l.set i v).getD i d = v := by
  simp [List.getD_eq_getElem?_getD, List.getElem?_set_self, h]

lemma set_getD_self {α : Type} (l : List α) (i : Nat) (d : α) :
    l.set i (l.getD i d) = l := by
  induction l generalizing i with
  | nil => simp
  | cons a t ih =>
    cases i with
    | zero => simp
    | succ n => simpa using ih n

lemma getD_irrel {α : Type} {l : List α} {i : Nat} (h : i < l.length) (d1 d2 : α) :
    l.getD i d1 = l.getD i d2 := by
  rw [List.getD_eq_getElem l d1 h, List.getD_eq_getElem l d2 h]

lemma getD_map_range {α : Type} (f : Nat → α) {n i : Nat} (h : i < n) (d : α) :
    (((List.range n).map f).getD i d) = f i := by
  have hlen : i < ((List.range n).map f).length := by simpa using h
  rw [List.getD_eq_getElem _ _ hlen]
  simp

lemma getD_map_of_lt {α β : Type} (f : α → β) {l : List α} {i : Nat} (h : i < l.length)
    (d : β) (d' : α) : ((l.map f).getD i d) = f (l.getD i d') := by
  have hlen : i < (l.map f).length := by simpa using h
  rw [List.getD_eq_getElem _ _ hlen, List.getD_eq_getElem _ _ h]
  simp

lemma colSum_cons (r : List Int) (m : List (List Int)) (j : Nat) :
    colSum (r :: m) j = r.getD j 0 + colSum m j := by
  simp [colSum]

lemma colSum_set (m : List (List Int)) {i : Nat} (row : List Int) (h : i < m.length) (j : Nat) :
    colSum (m.set i row) j = colSum m j - (m.getD i []).getD j 0 + row.getD j 0 := by
  induction m generalizing i with
  | nil => simp at h
  | cons a t ih =>
    cases i with
    | zero => simp [colSum_cons]; ring
    | succ n =>
      have hn : n < t.length := by simpa using h
      simp only [List.set, colSum_cons, List.getD_cons_succ, ih hn]
      ring

/-- The classic 5-process / 3-resource Banker scenario from the spec (totals
R0=10, R1=5, R2=7; Available = [3,3,2]; all processes active, no pending
requests, caches unbuilt). -/
def classicState : SystemState :=
  { processes :=
      [{ pid := 0, priority := 1, arrival_step := 0, max_demand := [7,5,3],
         allocation := [0,1,0], state := ProcessState.READY, current_request := [0,0,0] },
       { pid := 1, priority := 1, arrival_step := 0, max_demand := [3,2,2],
         allocation := [2,0,0], state := ProcessState.READY, current_request := [0,0,0] },
       { pid := 2, priority := 1, arrival_step := 0, max_demand := [9,0,2],
         allocation := [3,0,2], state := ProcessState.READY, current_request := [0,0,0] },
       { pid := 3, priority := 1, arrival_step := 0, max_demand := [2,2,2],
         allocation := [2,1,1], state := ProcessState.READY, current_request := [0,0,0] },
       { pid := 4, priority := 1, arrival_step := 0, max_demand := [4,3,3],
         allocation := [0,0,2], state := ProcessState.READY, current_request := [0,0,0] }]
    resources := [⟨0,10,3⟩, ⟨1,5,3⟩, ⟨2,7,2⟩] }

/-- A conservation-consistent ledger in which `Need[0][1] = 1` (P0 has
max demand 5 and allocation 4 on resource type 1). -/
def needOneState : SystemState :=
  { processes :=
      [{ pid := 0, priority := 1, arrival_step := 0, max_demand := [7,5,3],
         allocation := [0,4,0], state := ProcessState.READY, current_request := [0,0,0] },
       { pid := 1, priority := 1, arrival_step := 0, max_demand := [3,2,2],
         allocation := [2,0,0], state := ProcessState.READY, current_request := [0,0,0] },
       { pid := 2, priority := 1, arrival_step := 0, max_demand := [9,0,2],
         allocation := [3,0,2], state := ProcessState.READY, current_request := [0,0,0] },
       { pid := 3, priority := 1, arrival_step := 0, max_demand := [2,2,2],
         allocation := [2,1,1], state := ProcessState.READY, current_request := [0,0,0] },
       { pid := 4, priority := 1, arrival_step := 0, max_demand := [4,3,3],
         allocation := [0,0,2], state := ProcessState.READY, current_request := [0,0,0] }]
    resources := [⟨0,10,3⟩, ⟨1,5,0⟩, ⟨2,7,2⟩] }

/-- C2 counterexample: on the classic scenario the code's ascending-index
restart-scan does NOT produce the textbook sequence `[1, 3, 4, 0, 2]` claimed
by the spec (after P1 and P3 release, Work = [7,4,3] already covers P0's need
[7,4,3], and the restart-from-the-beginning scan reaches P0 before P4). -/
theorem C2_counterexample :
    is_safe_state classicState ≠ (true, some [1, 3, 4, 0, 2]) := by
  decide

/-- C2 (amended): on the classic 5-process / 3-resource scenario,
`is_safe_state` returns safe with the safe sequence `[1, 3, 0, 2, 4]` — the
sequence the ascending-index restart-scan policy actually produces. -/
theorem C2_classic_safe_sequence :
    is_safe_state classicState = (true, some [1, 3, 0, 2, 4]) := by
  decide

/-- C10: calling `recover_from_deadlock` with an empty `deadlocked_pids` list
returns `(False, ["No deadlocked processes to recover"])` with the ledger
untouched (no victim selection, no termination), for every ledger and every
recovery method — an empty set yields failure, not vacuous success. -/
theorem C10_empty_recover (s : SystemState) (method : String) :
    recover_from_deadlock [] s method =
      some (.ok (false, ["No deadlocked processes to recover"], s)) := by
  simp [recover_from_deadlock]

lemma updateProcess_processes (s : SystemState) {i : Nat} (h : i < s.processes.length)
    (f : Process → Process) :
    (updateProcess s i f).processes
      = s.processes.set i (f (s.processes.getD i default)) := by
  unfold updateProcess
  rw [List.get?_eq_get h]
  simp [List.getD_eq_getElem?_getD, List.getElem?_eq_getElem h, List.get_eq_getElem]

lemma updateProcess_resources (s : SystemState) (i : Nat) (f : Process → Process) :
    (updateProcess s i f).resources = s.resources := rfl

lemma updateProcess_length (s : SystemState) (i : Nat) (f : Process → Process) :
    (updateProcess s i f).processes.length = s.processes.length := by
  unfold updateProcess
  cases s.processes.get? i <;> simp

/-- C5: an invalid request — the amount exceeds the process's need
(`max_demand - allocation`) or is non-positive — is rejected by
`handle_request` with a denial reason string and no state mutation at all
(the returned ledger is the pre-call ledger); in particular P0 requesting
amount 2 of resource type 1 when `Need[0][1] = 1` yields
`(False, "Request exceeds need (requested: 2, need: 1)")` and changes
nothing. -/
theorem C5_invalid_request_no_mutation (s : SystemState) (pidx rt : Nat) (amount : Int)
    (h : amount > (s.processes.getD pidx default).max_demand.getD rt 0 -
           (s.processes.getD pidx default).allocation.getD rt 0 ∨ amount ≤ 0) :
    (∃ reason, handle_request pidx rt amount s = .ok (false, reason, s)) ∧
    handle_request 0 1 2 needOneState =
      .ok (false, "Request exceeds need (requested: 2, need: 1)", needOneState) := by
  refine ⟨?_, rfl⟩
  · by_cases hgt : amount > (s.processes.getD pidx default).max_demand.getD rt 0 -
        (s.processes.getD pidx default).allocation.getD rt 0
    · exact ⟨exceedsNeedMsg amount _, by rw [handle_request, if_pos hgt]⟩
    · have hle : amount ≤ 0 := h.resolve_left hgt
      exact ⟨invalidAmountMsg amount, by rw [handle_request, if_neg hgt, if_pos hle]⟩

/-- Closed witness for C5: the hypothesis is satisfied by the concrete
exceeds-need scenario. -/
theorem C5_witness :
    ∃ reason, handle_request 0 1 2 needOneState = .ok (false, reason, needOneState) :=
  (C5_invalid_request_no_mutation needOneState 0 1 2 (Or.inl (by decide))).1

/-- C4: a resource-shortage denial is a return value, never an exception: for
every request with `0 < amount <= Need[p][rt]` but `amount > Available[rt]`,
`handle_request` returns `Except.ok` (no raise) with `granted = false` and the
"insufficient resources" reason, having recorded
`current_request[rt] = amount` and moved the process to `WAITING`. -/
theorem C4_shortage_denial_is_return (s : SystemState) (pidx rt : Nat) (amount : Int)
    (hp : pidx < s.processes.length) (hrt : rt < s.resources.length) (hlen : lengthsOk s)
    (hpos : 0 < amount)
    (hneed : amount ≤ (s.processes.getD pidx default).max_demand.getD rt 0 -
       (s.processes.getD pidx default).allocation.getD rt 0)
    (hav : amount > (s.resources.getD rt default).available_instances) :
    ∃ s',
      handle_request pidx rt amount s =
        .ok (false,
          insufficientMsg amount (s.resources.getD rt default).available_instances, s') ∧
      (s'.processes.getD pidx default).current_request.getD rt 0 = amount ∧
      (s'.processes.getD pidx default).state = ProcessState.WAITING := by
  have hgt : ¬ (amount > (s.processes.getD pidx default).max_demand.getD rt 0 -
      (s.processes.getD pidx default).allocation.getD rt 0) := not_lt.mpr hneed
  have hle : ¬ (amount ≤ 0) := not_le.mpr hpos
  have hmem : s.processes.getD pidx default ∈ s.processes := by
    rw [List.getD_eq_getElem _ _ hp]
    exact List.getElem_mem hp
  have hcr : rt < (s.processes.getD pidx default).current_request.length := by
    rw [(hlen _ hmem).2.2]
    exact hrt
  have e1 : (setCurrentRequestEntry s pidx rt amount).processes
      = s.processes.set pidx
          { s.processes.getD pidx default with
            current_request := (s.processes.getD pidx default).current_request.set rt amount } := by
    rw [setCurrentRequestEntry, updateProcess_processes _ hp]
  have hp1 : pidx < (setCurrentRequestEntry s pidx rt amount).processes.length := by
    rw [e1]
    simpa using hp
  have e2 : (enter_waiting (setCurrentRequestEntry s pidx rt amount) pidx).processes
      = s.processes.set pidx
          { s.processes.getD pidx default with
            current_request := (s.processes.getD pidx default).current_request.set rt amount,
            state := ProcessState.WAITING } := by
    rw [enter_waiting, updateProcess_processes _ hp1, e1,
      getD_set_self _ (by simpa using hp), List.set_set]
  refine ⟨_, by rw [handle_request, if_neg hgt, if_neg hle, if_pos hav], ?_, ?_⟩
  · rw [e2, getD_set_self _ (by simpa using hp), getD_set_self _ hcr]
  · rw [e2, getD_set_self _ (by simpa using hp)]

/-- Closed witness for C4: in the classic scenario P0 may still need up to 7
of R0 while only 3 are available, so requesting 5 is denied with the process
recorded as waiting. -/
theorem C4_witness :
    ∃ s',
      handle_request 0 0 5 classicState =
        .ok (false,
          insufficientMsg 5 (classicState.resources.getD 0 default).available_instances, s') ∧
      (s'.processes.getD 0 default).current_request.getD 0 0 = 5 ∧
      (s'.processes.getD 0 default).state = ProcessState.WAITING :=
  C4_shortage_denial_is_return classicState 0 0 5 (by decide) (by decide)
    (by intro p hp; fin_cases hp <;> exact ⟨rfl, rfl, rfl⟩) (by decide) (by decide) (by decide)

lemma setAvailableInstances_resources (s : SystemState) {rt : Nat}
    (h : rt < s.resources.length) (v : Int) :
    (setAvailableInstances s rt v).resources
      = s.resources.set rt
          { s.resources.getD rt default with available_instances := v } := by
  unfold setAvailableInstances
  rw [List.get?_eq_get h]
  simp [List.getD_eq_getElem?_getD, List.getElem?_eq_getElem h, List.get_eq_getElem]

lemma setAvailableInstances_processes (s : SystemState) (rt : Nat) (v : Int) :
    (setAvailableInstances s rt v).processes = s.processes := by
  unfold setAvailableInstances
  cases s.resources.get? rt <;> rfl

lemma wait_path_processes (s : SystemState) {pidx : Nat} (hp : pidx < s.processes.length)
    (rt : Nat) (amount : Int) :
    (enter_waiting (setCurrentRequestEntry s pidx rt amount) pidx).processes
      = s.processes.set pidx
          { s.processes.getD pidx default with
            current_request := (s.processes.getD pidx default).current_request.set rt amount,
            state := ProcessState.WAITING } := by
  have e1 : (setCurrentRequestEntry s pidx rt amount).processes
      = s.processes.set pidx
          { s.processes.getD pidx default with
            current_request := (s.processes.getD pidx default).current_request.set rt amount } := by
    rw [setCurrentRequestEntry, updateProcess_processes _ hp]
  have hp1 : pidx < (setCurrentRequestEntry s pidx rt amount).processes.length := by
    rw [e1]
    simpa using hp
  rw [enter_waiting, updateProcess_processes _ hp1, e1,
    getD_set_self _ (by simpa using hp), List.set_set]

lemma rollback_path_frame (s : SystemState) {pidx rt : Nat} (hp : pidx < s.processes.length)
    (hrt : rt < s.resources.length) (x y amount : Int) :
    ((refresh_matrices (enter_waiting (setCurrentRequestEntry (setAvailableInstances
      (setAllocationEntry (refresh_matrices (setAvailableInstances
        (setAllocationEntry s pidx rt x) rt y)) pidx rt
        ((s.processes.getD pidx default).allocation.getD rt 0)) rt
        ((s.resources.getD rt default).available_instances)) pidx rt amount) pidx)).processes
      = s.processes.set pidx
          { s.processes.getD pidx default with
            current_request := (s.processes.getD pidx default).current_request.set rt amount,
            state := ProcessState.WAITING }) ∧
    ((refresh_matrices (enter_waiting (setCurrentRequestEntry (setAvailableInstances
      (setAllocationEntry (refresh_matrices (setAvailableInstances
        (setAllocationEntry s pidx rt x) rt y)) pidx rt
        ((s.processes.getD pidx default).allocation.getD rt 0)) rt
        ((s.resources.getD rt default).available_instances)) pidx rt amount) pidx)).resources
      = s.resources) := by
  have e0 : (setAllocationEntry s pidx rt x).processes
      = s.processes.set pidx
          { s.processes.getD pidx default with
            allocation := (s.processes.getD pidx default).allocation.set rt x } := by
    rw [setAllocationEntry, updateProcess_processes _ hp]
  have e0r : (setAllocationEntry s pidx rt x).resources = s.resources := rfl
  have e1 : (refresh_matrices (setAvailableInstances
        (setAllocationEntry s pidx rt x) rt y)).processes
      = s.processes.set pidx
          { s.processes.getD pidx default with
            allocation := (s.processes.getD pidx default).allocation.set rt x } := by
    show (setAvailableInstances (setAllocationEntry s pidx rt x) rt y).processes = _
    rw [setAvailableInstances_processes, e0]
  have hrt0 : rt < (setAllocationEntry s pidx rt x).resources.length := by
    rw [e0r]
    exact hrt
  have e1r : (refresh_matrices (setAvailableInstances
        (setAllocationEntry s pidx rt x) rt y)).resources
      = s.resources.set rt
          { s.resources.getD rt default with available_instances := y } := by
    show (setAvailableInstances (setAllocationEntry s pidx rt x) rt y).resources = _
    rw [setAvailableInstances_resources _ hrt0, e0r]
  have hp1 : pidx < (refresh_matrices (setAvailableInstances
        (setAllocationEntry s pidx rt x) rt y)).processes.length := by
    rw [e1]
    simpa using hp
  have e2 : (setAllocationEntry (refresh_matrices (setAvailableInstances
        (setAllocationEntry s pidx rt x) rt y)) pidx rt
        ((s.processes.getD pidx default).allocation.getD rt 0)).processes
      = s.processes.set pidx
          { s.processes.getD pidx default with
            allocation := (s.processes.getD pidx default).allocation } := by
    rw [setAllocationEntry, updateProcess_processes _ hp1, e1,
      getD_set_self _ (by simpa using hp), List.set_set]
    congr 1
    rw [List.set_set]
    generalize s.processes.getD pidx default = p
    cases p
    simp only [Process.mk.injEq, true_and, and_true]
    exact set_getD_self _ _ _
  have e2r : (setAllocationEntry (refresh_matrices (setAvailableInstances
        (setAllocationEntry s pidx rt x) rt y)) pidx rt
        ((s.processes.getD pidx default).allocation.getD rt 0)).resources
      = s.resources.set rt
          { s.resources.getD rt default with available_instances := y } := e1r
  have hrt1 : rt < (setAllocationEntry (refresh_matrices (setAvailableInstances
        (setAllocationEntry s pidx rt x) rt y)) pidx rt
        ((s.processes.getD pidx default).allocation.getD rt 0)).resources.length := by
    rw [e2r]
    simpa using hrt
  have e3r : (setAvailableInstances
      (setAllocationEntry (refresh_matrices (setAvailableInstances
        (setAllocationEntry s pidx rt x) rt y)) pidx rt
        ((s.processes.getD pidx default).allocation.getD rt 0)) rt
        ((s.resources.getD rt default).available_instances)).resources
      = s.resources := by
    rw [setAvailableInstances_resources _ hrt1, e2r,
      getD_set_self _ (by simpa using hrt), List.set_set, set_getD_self]
  have e3 : (setAvailableInstances
      (setAllocationEntry (refresh_matrices (setAvailableInstances
        (setAllocationEntry s pidx rt x) rt y)) pidx rt
        ((s.processes.getD pidx default).allocation.getD rt 0)) rt
        ((s.resources.getD rt default).available_instances)).processes
      = s.processes.set pidx
          { s.processes.getD pidx default with
            allocation := (s.processes.getD pidx default).allocation } := by
    rw [setAvailableInstances_processes, e2]
  have hp3 : pidx < (setAvailableInstances
      (setAllocationEntry (refresh_matrices (setAvailableInstances
        (setAllocationEntry s pidx rt x) rt y)) pidx rt
        ((s.processes.getD pidx default).allocation.getD rt 0)) rt
        ((s.resources.getD rt default).available_instances)).processes.length := by
    rw [e3]
    simpa using hp
  constructor
  · show (enter_waiting (setCurrentRequestEntry _ pidx rt amount) pidx).processes = _
    rw [wait_path_processes _ hp3 rt amount, e3,
      getD_set_self _ (by simpa using hp), List.set_set]
  · show (enter_waiting (setCurrentRequestEntry _ pidx rt amount) pidx).resources = _
    rw [enter_waiting, updateProcess_resources, setCurrentRequestEntry,
      updateProcess_resources, e3r]

/-- C3: admission atomicity on denial — whenever `handle_request` returns
`granted = false`, the process's allocation vector, the requested resource's
`available_instances`, and the process's `current_request` entries for every
other resource type all equal their pre-call values. -/
theorem C3_admission_atomicity_on_denial (s : SystemState) (pidx rt : Nat) (amount : Int)
    (hp : pidx < s.processes.length) (hrt : rt < s.resources.length)
    {reason : String} {s' : SystemState}
    (hret : handle_request pidx rt amount s = .ok (false, reason, s')) :
    (s'.processes.getD pidx default).allocation = (s.processes.getD pidx default).allocation ∧
    (s'.resources.getD rt default).available_instances
       = (s.resources.getD rt default).available_instances ∧
    ∀ j : Nat, j ≠ rt →
      (s'.processes.getD pidx default).current_request.getD j 0
        = (s.processes.getD pidx default).current_request.getD j 0 := by
  simp only [handle_request] at hret
  split at hret
  case isTrue h =>
    simp only [Except.ok.injEq, Prod.mk.injEq, true_and] at hret
    obtain ⟨-, hs⟩ := hret
    subst hs
    exact ⟨rfl, rfl, fun j _ => rfl⟩
  case isFalse h =>
    split at hret
    case isTrue h2 =>
      simp only [Except.ok.injEq, Prod.mk.injEq, true_and] at hret
      obtain ⟨-, hs⟩ := hret
      subst hs
      exact ⟨rfl, rfl, fun j _ => rfl⟩
    case isFalse h2 =>
      split at hret
      case isTrue h3 =>
        simp only [Except.ok.injEq, Prod.mk.injEq, true_and] at hret
        obtain ⟨-, hs⟩ := hret
        subst hs
        rw [wait_path_processes s hp rt amount]
        refine ⟨?_, rfl, ?_⟩
        · rw [getD_set_self _ (by simpa using hp)]
        · intro j hj
          rw [getD_set_self _ (by simpa using hp)]
          exact getD_set_ne _ (fun hh => hj hh.symm) _ _
      case isFalse h3 =>
        split at hret
        case isTrue h4 =>
          split at hret <;> split at hret <;> simp at hret
        case isFalse h4 =>
          simp only [Except.ok.injEq, Prod.mk.injEq, true_and] at hret
          obtain ⟨-, hs⟩ := hret
          subst hs
          obtain ⟨hP, hR⟩ := rollback_path_frame s hp hrt
            ((s.processes.getD pidx default).allocation.getD rt 0 + amount)
            ((s.resources.getD rt default).available_instances - amount) amount
          rw [hP, hR]
          refine ⟨?_, rfl, ?_⟩
          · rw [getD_set_self _ (by simpa using hp)]
          · intro j hj
            rw [getD_set_self _ (by simpa using hp)]
            exact getD_set_ne _ (fun hh => hj hh.symm) _ _

/-- Closed witness for C3: P0 requesting 5 of R0 in the classic scenario is
denied (insufficient resources), and the frame facts hold for the returned
waiting state. -/
theorem C3_witness :
    ((enter_waiting (setCurrentRequestEntry classicState 0 0 5) 0).processes.getD 0
        default).allocation = (classicState.processes.getD 0 default).allocation ∧
    (((enter_waiting (setCurrentRequestEntry classicState 0 0 5) 0).resources.getD 0
        default).available_instances
      = (classicState.resources.getD 0 default).available_instances) ∧
    ∀ j : Nat, j ≠ 0 →
      ((enter_waiting (setCurrentRequestEntry classicState 0 0 5) 0).processes.getD 0
          default).current_request.getD j 0
        = (classicState.processes.getD 0 default).current_request.getD j 0 :=
  C3_admission_atomicity_on_denial classicState 0 0 5 (by decide) (by decide) rfl

lemma allocation_matrix_of_coherent {s : SystemState} (h : cachesCoherent s) :
    allocation_matrix s = buildAllocationMatrix s := by
  rcases h.1 with h1 | h1 <;> simp [allocation_matrix, h1]

lemma max_demand_matrix_of_coherent {s : SystemState} (h : cachesCoherent s) :
    max_demand_matrix s = buildMaxDemandMatrix s := by
  rcases h.2.1 with h1 | h1 <;> simp [max_demand_matrix, h1]

lemma available_vector_of_coherent {s : SystemState} (h : cachesCoherent s) :
    available_vector s = buildAvailableVector s := by
  rcases h.2.2.1 with h1 | h1 <;> simp [available_vector, h1]

lemma request_matrix_of_coherent {s : SystemState} (h : cachesCoherent s) :
    request_matrix s = buildRequestMatrix s := by
  rcases h.2.2.2.1 with h1 | h1 <;> simp [request_matrix, h1]

lemma need_matrix_of_coherent {s : SystemState} (h : cachesCoherent s) :
    need_matrix s = matSub (buildMaxDemandMatrix s) (buildAllocationMatrix s) := by
  rcases h.2.2.2.2 with h1 | h1 <;>
    simp [need_matrix, h1, allocation_matrix_of_coherent h, max_demand_matrix_of_coherent h]

/-- The boolean conservation check unfolded into its arithmetic content. -/
lemma assert_resource_conservation_iff (s : SystemState) :
    assert_resource_conservation s = true ↔
      ∀ r < s.resources.length,
        colSum (allocation_matrix s) r + (available_vector s).getD r 0
            = (s.resources.getD r default).total_instances ∧
        0 ≤ (available_vector s).getD r 0 := by
  simp [assert_resource_conservation, List.all_eq_true, List.mem_range]

/-- A freshly refreshed state reads every matrix from the underlying data. -/
lemma refresh_coherent (s : SystemState) : cachesCoherent (refresh_matrices s) := by
  refine ⟨Or.inl rfl, Or.inl rfl, Or.inl rfl, Or.inl rfl, Or.inl rfl⟩

lemma buildRow_set (alloc : List Int) {R rt : Nat} (hrt : rt < R) (hlen : alloc.length = R)
    (v : Int) :
    (List.range R).map (fun j => (alloc.set rt v).getD j 0)
      = ((List.range R).map (fun j => alloc.getD j 0)).set rt v := by
  apply List.ext_getElem
  · simp
  · intro j hj hj2
    have hjR : j < R := by simpa using hj
    rw [List.getElem_map, List.getElem_range]
    by_cases hcase : j = rt
    · subst hcase
      rw [getD_set_self _ (by rw [hlen]; exact hrt), List.getElem_set_self hj2]
    · rw [getD_set_ne _ (fun hh => hcase hh.symm),
        List.getElem_set_ne (fun hh => hcase hh.symm) hj2, List.getElem_map, List.getElem_range]

lemma getD_nonneg_of_mem {l : List Int} (h : ∀ x ∈ l, 0 ≤ x) (j : Nat) : 0 ≤ l.getD j 0 := by
  by_cases hj : j < l.length
  · rw [List.getD_eq_getElem _ _ hj]
    exact h _ (List.getElem_mem hj)
  · rw [List.getD_eq_default _ _ (Nat.le_of_not_lt hj)]

lemma buildAlloc_row_entry_nonneg {s : SystemState} (h : allocNonneg s) (i j : Nat) :
    0 ≤ ((buildAllocationMatrix s).getD i []).getD j 0 := by
  by_cases hi : i < s.processes.length
  · rw [buildAllocationMatrix, getD_map_of_lt _ hi _ default]
    by_cases hj : j < s.resources.length
    · rw [getD_map_range _ hj]
      refine getD_nonneg_of_mem (h _ ?_) j
      rw [List.getD_eq_getElem _ _ hi]
      exact List.getElem_mem hi
    · rw [List.getD_eq_default]
      simpa using Nat.le_of_not_lt hj
  · have h1 : (buildAllocationMatrix s).getD i [] = [] := by
      apply List.getD_eq_default
      simpa [buildAllocationMatrix] using Nat.le_of_not_lt hi
    rw [h1]
    simp

lemma replicate_row_build (R n : Nat) :
    (List.range R).map (fun j => (List.replicate n (0 : Int)).getD j 0)
      = List.replicate R (0 : Int) := by
  refine List.eq_replicate.mpr ⟨by simp, ?_⟩
  intro b hb
  obtain ⟨j, _, rfl⟩ := List.mem_map.mp hb
  by_cases hj : j < n
  · rw [List.getD_eq_getElem _ _ (by simpa using hj)]
    simp
  · rw [List.getD_eq_default]
    simpa using Nat.le_of_not_lt hj

lemma colSum_nonneg_entries {m : List (List Int)}
    (h : ∀ i j : Nat, 0 ≤ (m.getD i []).getD j 0) (j : Nat) : 0 ≤ colSum m j := by
  rw [colSum]
  apply List.sum_nonneg
  intro x hx
  obtain ⟨row, hrow, rfl⟩ := List.mem_map.mp hx
  obtain ⟨i, hi, rfl⟩ := List.mem_iff_getElem.mp hrow
  have := h i j
  rwa [List.getD_eq_getElem _ _ hi] at this

/-- Conservation is preserved by a committed tentative allocation: add `amount`
to one allocation entry, subtract it from the matching available field. -/
lemma conserve_after_tentative (s : SystemState) {pidx rt : Nat}
    (hp : pidx < s.processes.length) (hrt : rt < s.resources.length)
    (hlen : lengthsOk s) (hCoh : cachesCoherent s)
    (hCons : assert_resource_conservation s = true)
    (amount : Int) (hav : amount ≤ (s.resources.getD rt default).available_instances)
    (q : Process)
    (hq : q.allocation = (s.processes.getD pidx default).allocation.set rt
        ((s.processes.getD pidx default).allocation.getD rt 0 + amount))
    (s' : SystemState)
    (hprocs : s'.processes = s.processes.set pidx q)
    (hres : s'.resources = s.resources.set rt
      { s.resources.getD rt default with
        available_instances := (s.resources.getD rt default).available_instances - amount })
    (hcacheA : s'.allocCache = none) (hcacheV : s'.availCache = none) :
    assert_resource_conservation s' = true := by
  have halloclen : (s.processes.getD pidx default).allocation.length = s.resources.length := by
    refine (hlen _ ?_).1
    rw [List.getD_eq_getElem _ _ hp]
    exact List.getElem_mem hp
  have hRlen : s'.resources.length = s.resources.length := by
    rw [hres, List.length_set]
  have hgA : allocation_matrix s' = buildAllocationMatrix s' := by
    simp [allocation_matrix, hcacheA]
  have hgV : available_vector s' = buildAvailableVector s' := by
    simp [available_vector, hcacheV]
  have hbuildA : buildAllocationMatrix s'
      = (buildAllocationMatrix s).set pidx
          (((List.range s.resources.length).map
            (fun j => (s.processes.getD pidx default).allocation.getD j 0)).set rt
            ((s.processes.getD pidx default).allocation.getD rt 0 + amount)) := by
    rw [buildAllocationMatrix, hprocs, hRlen, List.map_set, hq,
      buildRow_set _ hrt halloclen, buildAllocationMatrix]
  have hbuildV : buildAvailableVector s'
      = (buildAvailableVector s).set rt
          ((s.resources.getD rt default).available_instances - amount) := by
    rw [buildAvailableVector, hres, List.map_set, buildAvailableVector]
  have hpre := (assert_resource_conservation_iff s).mp hCons
  rw [allocation_matrix_of_coherent hCoh, available_vector_of_coherent hCoh] at hpre
  rw [assert_resource_conservation_iff]
  intro r hr
  rw [hRlen] at hr
  obtain ⟨hpre1, hpre2⟩ := hpre r hr
  have hplen : pidx < (buildAllocationMatrix s).length := by
    simpa [buildAllocationMatrix] using hp
  have hrowlen : rt < ((List.range s.resources.length).map
      (fun j => (s.processes.getD pidx default).allocation.getD j 0)).length := by
    simpa using hrt
  have hRV : rt < (buildAvailableVector s).length := by
    simpa [buildAvailableVector] using hrt
  have hrow : (buildAllocationMatrix s).getD pidx []
      = (List.range s.resources.length).map
          (fun j => (s.processes.getD pidx default).allocation.getD j 0) := by
    rw [buildAllocationMatrix, getD_map_of_lt _ hp _ default]
  have htot : (s'.resources.getD r default).total_instances
      = (s.resources.getD r default).total_instances := by
    rw [hres]
    by_cases hcase : r = rt
    · subst hcase
      rw [getD_set_self _ hrt]
    · rw [getD_set_ne _ (fun hh => hcase hh.symm)]
  have havV : (buildAvailableVector s).getD rt 0
      = (s.resources.getD rt default).available_instances := by
    rw [buildAvailableVector, getD_map_of_lt _ hrt _ default]
  rw [hgA, hgV, hbuildA, hbuildV, htot, colSum_set _ _ hplen r, hrow]
  by_cases hcase : r = rt
  · subst hcase
    rw [getD_set_self _ hrowlen, getD_set_self _ hRV, getD_map_range _ hr]
    constructor
    · linarith [hpre1]
    · rw [havV] at hpre2
      linarith [hav]
  · rw [getD_set_ne _ (fun hh => hcase hh.symm), getD_set_ne _ (fun hh => hcase hh.symm)]
    exact ⟨by linarith [hpre1], hpre2⟩

lemma findIdx?_shift {α : Type} (p : α → Bool) :
    ∀ (l : List α) (st i : Nat), List.findIdx? p l st = some i →
      st ≤ i ∧ i - st < l.length := by
  intro l
  induction l with
  | nil => intro st i h; simp [List.findIdx?] at h
  | cons a t ih =>
    intro st i h
    rw [List.findIdx?_cons] at h
    split at h
    · cases h
      refine ⟨Nat.le_refl _, ?_⟩
      rw [List.length_cons]
      omega
    · obtain ⟨h1, h2⟩ := ih (st + 1) i h
      refine ⟨by omega, ?_⟩
      rw [List.length_cons]
      omega

lemma findIdx?_some_lt {α : Type} {p : α → Bool} {l : List α} {i : Nat}
    (h : l.findIdx? p = some i) : i < l.length := by
  have := findIdx?_shift p l 0 i h
  omega

lemma findIdx?_isSome_of {α : Type} (p : α → Bool) :
    ∀ (l : List α) (st : Nat), (∃ x ∈ l, p x = true) →
      (List.findIdx? p l st).isSome = true := by
  intro l
  induction l with
  | nil => intro st h; simp at h
  | cons a t ih =>
    intro st h
    rw [List.findIdx?_cons]
    by_cases hpa : p a = true
    · simp [hpa]
    · obtain ⟨x, hx, hpx⟩ := h
      rcases List.mem_cons.mp hx with rfl | hx
      · exact absurd hpx hpa
      · simpa [hpa] using ih (st + 1) ⟨x, hx, hpx⟩

lemma findIdx?_pred {α : Type} (p : α → Bool) (d : α) :
    ∀ (l : List α) (st i : Nat), List.findIdx? p l st = some i →
      p (l.getD (i - st) d) = true := by
  intro l
  induction l with
  | nil => intro st i h; simp [List.findIdx?] at h
  | cons a t ih =>
    intro st i h
    rw [List.findIdx?_cons] at h
    split at h
    · cases h
      simpa
    · have hsh := findIdx?_shift p t (st + 1) i h
      have := ih (st + 1) i h
      have hd : i - st = (i - (st + 1)) + 1 := by omega
      rw [hd, List.getD_cons_succ]
      exact this

lemma replicate_getD_zero (n j : Nat) : (List.replicate n (0 : Int)).getD j 0 = 0 := by
  by_cases hj : j < n
  · rw [List.getD_eq_getElem _ _ (by simpa using hj)]
    simp
  · rw [List.getD_eq_default]
    simpa using Nat.le_of_not_lt hj

/-- Full characterisation of a successful `terminate_process` on a well-formed
ledger: it returns `ok`, zeroes the victim's rows, recomputes every available
count from the conservation equation, and the final conservation check passes. -/
lemma terminate_spec (s : SystemState) (pid : Int) {idx : Nat}
    (hfind : s.processes.findIdx? (fun p => p.pid == pid) = some idx)
    (hlen : lengthsOk s) (hCoh : cachesCoherent s) (hNN : allocNonneg s)
    (hCons : assert_resource_conservation s = true) :
    ∃ msg s1, terminate_process pid s = .ok (true, msg, s1) ∧
      s1.processes = s.processes.set idx
        { s.processes.getD idx default with
          allocation := List.replicate (s.processes.getD idx default).max_demand.length 0,
          current_request := List.replicate (s.processes.getD idx default).max_demand.length 0,
          state := ProcessState.TERMINATED } ∧
      buildAllocationMatrix s1
        = (buildAllocationMatrix s).set idx (List.replicate s.resources.length 0) ∧
      s1.resources.length = s.resources.length ∧
      (∀ r < s.resources.length, s1.resources.getD r default
        = { s.resources.getD r default with
            available_instances := (s.resources.getD r default).total_instances
              - colSum (buildAllocationMatrix s1) r }) ∧
      assert_resource_conservation s1 = true ∧
      cachesCoherent s1 ∧
      s1.processes.length = s.processes.length := by
  have hidx : idx < s.processes.length := findIdx?_some_lt hfind
  have hA := allocation_matrix_of_coherent hCoh
  have hprocs1 : (terminatedState s idx).processes = s.processes.set idx
      { s.processes.getD idx default with
        allocation := List.replicate (s.processes.getD idx default).max_demand.length 0,
        current_request := List.replicate (s.processes.getD idx default).max_demand.length 0,
        state := ProcessState.TERMINATED } := rfl
  have hres1 : (terminatedState s idx).resources
      = (List.range s.resources.length).map (fun r =>
          { s.resources.getD r default with
            available_instances := (s.resources.getD r default).total_instances
              - colSum ((allocation_matrix s).set idx
                  (List.replicate s.resources.length 0)) r }) := rfl
  have hR1 : (terminatedState s idx).resources.length = s.resources.length := by
    rw [hres1]
    simp
  have hbuildA : buildAllocationMatrix (terminatedState s idx)
      = (buildAllocationMatrix s).set idx (List.replicate s.resources.length 0) := by
    rw [buildAllocationMatrix, hprocs1, hR1, List.map_set, buildAllocationMatrix]
    congr 1
    rw [replicate_row_build]
  have hresD : ∀ r < s.resources.length, (terminatedState s idx).resources.getD r default
      = { s.resources.getD r default with
          available_instances := (s.resources.getD r default).total_instances
            - colSum (buildAllocationMatrix (terminatedState s idx)) r } := by
    intro r hr
    rw [hres1, getD_map_range _ hr, hbuildA, hA]
  have hpre := (assert_resource_conservation_iff s).mp hCons
  rw [allocation_matrix_of_coherent hCoh, available_vector_of_coherent hCoh] at hpre
  have hplen : idx < (buildAllocationMatrix s).length := by
    simpa [buildAllocationMatrix] using hidx
  have hCoh1 : cachesCoherent (terminatedState s idx) := by
    rw [terminatedState]
    exact refresh_coherent _
  have hassert : assert_resource_conservation (terminatedState s idx) = true := by
    rw [assert_resource_conservation_iff]
    intro r hr
    rw [hR1] at hr
    have hVr : (buildAvailableVector (terminatedState s idx)).getD r 0
        = (s.resources.getD r default).total_instances
          - colSum (buildAllocationMatrix (terminatedState s idx)) r := by
      rw [buildAvailableVector, getD_map_of_lt _ (by rw [hR1]; exact hr) _ default,
        hresD r hr]
    have htotr : ((terminatedState s idx).resources.getD r default).total_instances
        = (s.resources.getD r default).total_instances := by
      rw [hresD r hr]
    rw [allocation_matrix_of_coherent hCoh1, available_vector_of_coherent hCoh1, hVr, htotr]
    refine ⟨by ring, ?_⟩
    obtain ⟨hpre1, hpre2⟩ := hpre r hr
    have hcol : colSum (buildAllocationMatrix (terminatedState s idx)) r
        = colSum (buildAllocationMatrix s) r
          - ((buildAllocationMatrix s).getD idx []).getD r 0 := by
      rw [hbuildA, colSum_set _ _ hplen r, replicate_getD_zero]
      ring
    have hrow0 : 0 ≤ ((buildAllocationMatrix s).getD idx []).getD r 0 :=
      buildAlloc_row_entry_nonneg hNN idx r
    rw [hcol]
    linarith
  simp only [terminate_process, hfind]
  rw [if_pos hassert]
  refine ⟨_, terminatedState s idx, rfl, hprocs1, hbuildA, hR1, hresD, hassert, hCoh1, ?_⟩
  rw [hprocs1]
  simp

lemma tentative_processes (s : SystemState) {pidx : Nat} (hp : pidx < s.processes.length)
    (rt : Nat) (x y : Int) :
    (refresh_matrices (setAvailableInstances (setAllocationEntry s pidx rt x) rt y)).processes
      = s.processes.set pidx
          { s.processes.getD pidx default with
            allocation := (s.processes.getD pidx default).allocation.set rt x } := by
  show (setAvailableInstances (setAllocationEntry s pidx rt x) rt y).processes = _
  rw [setAvailableInstances_processes, setAllocationEntry, updateProcess_processes _ hp]

lemma tentative_resources (s : SystemState) {rt : Nat} (hrt : rt < s.resources.length)
    (pidx : Nat) (x y : Int) :
    (refresh_matrices (setAvailableInstances (setAllocationEntry s pidx rt x) rt y)).resources
      = s.resources.set rt { s.resources.getD rt default with available_instances := y } := by
  show (setAvailableInstances (setAllocationEntry s pidx rt x) rt y).resources = _
  exact setAvailableInstances_resources (setAllocationEntry s pidx rt x) hrt y

/-- The committed grant state without the `WAITING -> READY` transition. -/
lemma commit_assert_noswitch (s : SystemState) {pidx rt : Nat}
    (hp : pidx < s.processes.length) (hrt : rt < s.resources.length)
    (hlen : lengthsOk s) (hCoh : cachesCoherent s)
    (hCons : assert_resource_conservation s = true)
    (amount : Int) (hav : amount ≤ (s.resources.getD rt default).available_instances) :
    assert_resource_conservation
      (setCurrentRequestEntry (refresh_matrices (setAvailableInstances
        (setAllocationEntry s pidx rt
          ((s.processes.getD pidx default).allocation.getD rt 0 + amount)) rt
        ((s.resources.getD rt default).available_instances - amount))) pidx rt 0) = true := by
  have hp3 : pidx < (refresh_matrices (setAvailableInstances
      (setAllocationEntry s pidx rt
        ((s.processes.getD pidx default).allocation.getD rt 0 + amount)) rt
      ((s.resources.getD rt default).available_instances - amount))).processes.length := by
    rw [tentative_processes s hp]
    simpa using hp
  refine conserve_after_tentative s hp hrt hlen hCoh hCons amount hav
    { s.processes.getD pidx default with
      allocation := (s.processes.getD pidx default).allocation.set rt
        ((s.processes.getD pidx default).allocation.getD rt 0 + amount),
      current_request := (s.processes.getD pidx default).current_request.set rt 0 }
    rfl _ ?_ ?_ rfl rfl
  · rw [setCurrentRequestEntry, updateProcess_processes _ hp3, tentative_processes s hp,
      getD_set_self _ (by simpa using hp), List.set_set]
  · rw [setCurrentRequestEntry, updateProcess_resources, tentative_resources s hrt]

/-- The committed grant state with the `WAITING -> READY` transition. -/
lemma commit_assert_switch (s : SystemState) {pidx rt : Nat}
    (hp : pidx < s.processes.length) (hrt : rt < s.resources.length)
    (hlen : lengthsOk s) (hCoh : cachesCoherent s)
    (hCons : assert_resource_conservation s = true)
    (amount : Int) (hav : amount ≤ (s.resources.getD rt default).available_instances) :
    assert_resource_conservation
      (updateProcess (exit_waiting (setCurrentRequestEntry (refresh_matrices
        (setAvailableInstances (setAllocationEntry s pidx rt
          ((s.processes.getD pidx default).allocation.getD rt 0 + amount)) rt
        ((s.resources.getD rt default).available_instances - amount))) pidx rt 0) pidx) pidx
        (fun p => { p with state := ProcessState.READY })) = true := by
  have hp3 : pidx < (refresh_matrices (setAvailableInstances
      (setAllocationEntry s pidx rt
        ((s.processes.getD pidx default).allocation.getD rt 0 + amount)) rt
      ((s.resources.getD rt default).available_instances - amount))).processes.length := by
    rw [tentative_processes s hp]
    simpa using hp
  have e4 : (setCurrentRequestEntry (refresh_matrices (setAvailableInstances
      (setAllocationEntry s pidx rt
        ((s.processes.getD pidx default).allocation.getD rt 0 + amount)) rt
      ((s.resources.getD rt default).available_instances - amount))) pidx rt 0).processes
      = s.processes.set pidx
          { s.processes.getD pidx default with
            allocation := (s.processes.getD pidx default).allocation.set rt
              ((s.processes.getD pidx default).allocation.getD rt 0 + amount),
            current_request := (s.processes.getD pidx default).current_request.set rt 0 } := by
    rw [setCurrentRequestEntry, updateProcess_processes _ hp3, tentative_processes s hp,
      getD_set_self _ (by simpa using hp), List.set_set]
  have hp4 : pidx < (setCurrentRequestEntry (refresh_matrices (setAvailableInstances
      (setAllocationEntry s pidx rt
        ((s.processes.getD pidx default).allocation.getD rt 0 + amount)) rt
      ((s.resources.getD rt default).available_instances - amount))) pidx rt 0).processes.length := by
    rw [e4]
    simpa using hp
  refine conserve_after_tentative s hp hrt hlen hCoh hCons amount hav
    { s.processes.getD pidx default with
      allocation := (s.processes.getD pidx default).allocation.set rt
        ((s.processes.getD pidx default).allocation.getD rt 0 + amount),
      state := ProcessState.READY,
      current_request := (s.processes.getD pidx default).current_request.set rt 0 }
    rfl _ ?_ ?_ rfl rfl
  · rw [exit_waiting, updateProcess_processes _ hp4, e4,
      getD_set_self _ (by simpa using hp), List.set_set]
  · rw [updateProcess_resources, exit_waiting, setCurrentRequestEntry,
      updateProcess_resources, tentative_resources s hrt]

lemma preempt_assert (s : SystemState) (pid : Int) {rt : Nat} (amount : Int)
    (hCoh : cachesCoherent s) (hCons : assert_resource_conservation s = true)
    (hamt : 0 ≤ amount) (hrt : rt < s.resources.length)
    {msg : String} {snap : Option Snapshot} {s' : SystemState}
    (h : preempt_resources pid rt amount s = (true, msg, snap, s')) :
    assert_resource_conservation s' = true := by
  cases hfind : s.processes.findIdx? (fun p => p.pid == pid) with
  | none =>
    simp only [preempt_resources, hfind] at h
    simp at h
  | some idx =>
    have hidx : idx < s.processes.length := findIdx?_some_lt hfind
    simp only [preempt_resources, hfind] at h
    split at h
    · simp at h
    · rename_i hge
      simp only [Prod.mk.injEq, true_and] at h
      obtain ⟨-, -, hs⟩ := h
      have hA1 : allocation_matrix s'
          = (allocation_matrix s).set idx
              (((allocation_matrix s).getD idx []).set rt
                (((allocation_matrix s).getD idx []).getD rt 0 - amount)) := by
        rw [← hs]
        rfl
      have hV1 : available_vector s'
          = (available_vector s).set rt ((available_vector s).getD rt 0 + amount) := by
        rw [← hs]
        rfl
      have hres1 : s'.resources = s.resources := by
        rw [← hs]
        rfl
      have hAl : allocation_matrix s = buildAllocationMatrix s :=
        allocation_matrix_of_coherent hCoh
      have hVl : available_vector s = buildAvailableVector s :=
        available_vector_of_coherent hCoh
      have hplen : idx < (allocation_matrix s).length := by
        rw [hAl]
        simpa [buildAllocationMatrix] using hidx
      have hrowE : (allocation_matrix s).getD idx []
          = (List.range s.resources.length).map
              (fun j => (s.processes.getD idx default).allocation.getD j 0) := by
        rw [hAl, buildAllocationMatrix, getD_map_of_lt _ hidx _ default]
      have hrowlen : rt < ((allocation_matrix s).getD idx []).length := by
        rw [hrowE]
        simpa using hrt
      have hVlen : rt < (available_vector s).length := by
        rw [hVl]
        simpa [buildAvailableVector] using hrt
      have hpre := (assert_resource_conservation_iff s).mp hCons
      rw [assert_resource_conservation_iff]
      intro r hr
      rw [hres1] at hr
      obtain ⟨hpre1, hpre2⟩ := hpre r hr
      rw [hA1, hV1, hres1, colSum_set _ _ hplen r]
      by_cases hcase : r = rt
      · subst hcase
        rw [getD_set_self _ hrowlen, getD_set_self _ hVlen]
        constructor
        · linarith [hpre1]
        · linarith [hpre2]
      · rw [getD_set_ne _ (fun hh => hcase hh.symm), getD_set_ne _ (fun hh => hcase hh.symm)]
        exact ⟨by linarith [hpre1], hpre2⟩

/-- C1: conservation invariant — on a well-formed ledger every committing
operation preserves `sum_p Allocation[p][r] + Available[r] = total_instances[r]`
with `Available[r] >= 0`, checked by `assert_resource_conservation`: (i) an
admission never takes the fatal-assertion (`Except.error`) path, (ii) a granted
admission leaves the check passing, (iii) `terminate_process` on a present pid
returns normally with the check passing, and (iv) a committed preemption leaves
the check passing.  A violation could only surface as the `Except.error` abort,
never as a `granted`/`success` return value. -/
theorem C1_conservation_invariant (s : SystemState) (hWF : ledgerWF s) :
    (∀ (pidx rt : Nat) (amount : Int), pidx < s.processes.length →
        rt < s.resources.length →
        ∀ e : String, handle_request pidx rt amount s ≠ .error e) ∧
    (∀ (pidx rt : Nat) (amount : Int) (reason : String) (s' : SystemState),
        handle_request pidx rt amount s = .ok (true, reason, s') →
        assert_resource_conservation s' = true) ∧
    (∀ pid : Int, (∃ p ∈ s.processes, p.pid = pid) →
        ∃ msg s', terminate_process pid s = .ok (true, msg, s') ∧
          assert_resource_conservation s' = true) ∧
    (∀ (pid : Int) (rt : Nat) (amount : Int) (msg : String) (snap : Option Snapshot)
        (s' : SystemState), 0 ≤ amount → rt < s.resources.length →
        preempt_resources pid rt amount s = (true, msg, snap, s') →
        assert_resource_conservation s' = true) := by
  obtain ⟨hlen, hCoh, hNN, hCons⟩ := hWF
  refine ⟨?_, ?_, ?_, ?_⟩
  · intro pidx rt amount hp hrt e hret
    simp only [handle_request] at hret
    split at hret
    case isTrue => simp at hret
    case isFalse =>
      split at hret
      case isTrue => simp at hret
      case isFalse =>
        split at hret
        case isTrue => simp at hret
        case isFalse h3 =>
          split at hret
          case isTrue =>
            split at hret
            case isTrue =>
              split at hret
              case isTrue => simp at hret
              case isFalse hcond =>
                exact hcond (commit_assert_switch s hp hrt hlen hCoh hCons amount
                  (not_lt.mp h3))
            case isFalse =>
              split at hret
              case isTrue => simp at hret
              case isFalse hcond =>
                exact hcond (commit_assert_noswitch s hp hrt hlen hCoh hCons amount
                  (not_lt.mp h3))
          case isFalse => simp at hret
  · intro pidx rt amount reason s' hret
    simp only [handle_request] at hret
    split at hret
    case isTrue => simp at hret
    case isFalse =>
      split at hret
      case isTrue => simp at hret
      case isFalse =>
        split at hret
        case isTrue => simp at hret
        case isFalse =>
          split at hret
          case isTrue =>
            split at hret
            case isTrue =>
              split at hret
              case isTrue hcond =>
                simp only [Except.ok.injEq, Prod.mk.injEq, true_and] at hret
                obtain ⟨-, hs⟩ := hret
                subst hs
                exact hcond
              case isFalse => simp at hret
            case isFalse =>
              split at hret
              case isTrue hcond =>
                simp only [Except.ok.injEq, Prod.mk.injEq, true_and] at hret
                obtain ⟨-, hs⟩ := hret
                subst hs
                exact hcond
              case isFalse => simp at hret
          case isFalse => simp at hret
  · intro pid hpres
    obtain ⟨p, hpmem, hpid⟩ := hpres
    have hsome : (List.findIdx? (fun q => q.pid == pid) s.processes 0).isSome = true :=
      findIdx?_isSome_of _ s.processes 0 ⟨p, hpmem, by simpa using hpid⟩
    obtain ⟨idx, hfind⟩ := Option.isSome_iff_exists.mp hsome
    obtain ⟨msg, s1, heq, -, -, -, -, hassert, -, -⟩ :=
      terminate_spec s pid hfind hlen hCoh hNN hCons
    exact ⟨msg, s1, heq, hassert⟩
  · intro pid rt amount msg snap s' hamt hrt hret
    exact preempt_assert s pid amount hCoh hCons hamt hrt hret

/-- Closed witness for C1: on the classic scenario, terminating P0 returns
normally and the conservation check still passes afterwards. -/
theorem C1_witness :
    ∃ msg s', terminate_process 0 classicState = .ok (true, msg, s') ∧
      assert_resource_conservation s' = true :=
  (C1_conservation_invariant classicState
    ⟨by unfold lengthsOk; decide, by unfold cachesCoherent; decide,
     by unfold allocNonneg; decide, by decide⟩).2.2.1 0 (by decide)

/-- Concrete termination scenario of the spec: the victim P0 holds
`[3,0,2]`, totals are `[10,5,7]`, pre-termination available is `[2,3,0]`,
and conservation holds beforehand (P1 holds the rest: `[5,2,5]`). -/
def preTermState : SystemState :=
  { processes :=
      [{ pid := 0, priority := 1, arrival_step := 0, max_demand := [3,0,2],
         allocation := [3,0,2], state := ProcessState.DEADLOCKED,
         current_request := [0,0,1] },
       { pid := 1, priority := 2, arrival_step := 0, max_demand := [5,2,5],
         allocation := [5,2,5], state := ProcessState.RUNNING,
         current_request := [0,0,0] }]
    resources := [⟨0,10,2⟩, ⟨1,5,3⟩, ⟨2,7,0⟩] }

/-- C8: `terminate_process` on a present pid zeroes the victim's allocation
and `current_request` rows, sets its state `TERMINATED`, and recomputes every
resource's `available_instances` as `total_instances` minus the summed
allocation column of the post-termination allocation matrix; concretely,
terminating a victim holding `[3,0,2]` with totals `[10,5,7]` and available
`[2,3,0]` (conservation holding) leaves available `[5,3,2]`. -/
theorem C8_terminate_postcondition (s : SystemState) (pid : Int) (idx : Nat)
    (hfind : s.processes.findIdx? (fun p => p.pid == pid) = some idx)
    (hWF : ledgerWF s) :
    (∃ msg s', terminate_process pid s = .ok (true, msg, s') ∧
      (s'.processes.getD idx default).allocation = List.replicate s.resources.length 0 ∧
      (s'.processes.getD idx default).current_request
        = List.replicate s.resources.length 0 ∧
      (s'.processes.getD idx default).state = ProcessState.TERMINATED ∧
      ∀ r < s.resources.length,
        (s'.resources.getD r default).available_instances
          = (s.resources.getD r default).total_instances
            - colSum (buildAllocationMatrix s') r) ∧
    (∃ msg s', terminate_process 0 preTermState = .ok (true, msg, s') ∧
      s'.resources.map (·.available_instances) = [5, 3, 2] ∧
      (s'.processes.getD 0 default).allocation = [0, 0, 0] ∧
      (s'.processes.getD 0 default).current_request = [0, 0, 0]) := by
  obtain ⟨hlen, hCoh, hNN, hCons⟩ := hWF
  constructor
  · have hidx : idx < s.processes.length := findIdx?_some_lt hfind
    obtain ⟨msg, s1, heq, hprocs, hbuild, hR1, hresD, -, -, -⟩ :=
      terminate_spec s pid hfind hlen hCoh hNN hCons
    have hmem : s.processes.getD idx default ∈ s.processes := by
      rw [List.getD_eq_getElem _ _ hidx]
      exact List.getElem_mem hidx
    have hmd : (s.processes.getD idx default).max_demand.length = s.resources.length :=
      (hlen _ hmem).2.1
    have hget : s1.processes.getD idx default
        = { s.processes.getD idx default with
            allocation := List.replicate (s.processes.getD idx default).max_demand.length 0,
            current_request :=
              List.replicate (s.processes.getD idx default).max_demand.length 0,
            state := ProcessState.TERMINATED } := by
      rw [hprocs, getD_set_self _ (by simpa using hidx)]
    refine ⟨msg, s1, heq, ?_, ?_, ?_, ?_⟩
    · rw [hget, hmd]
    · rw [hget, hmd]
    · rw [hget]
    · intro r hr
      rw [hresD r hr]
  · exact ⟨"Terminated P0 (priority=1, holding R0[3], R2[2])",
      terminatedState preTermState 0, rfl, by decide, by decide, by decide⟩

/-- Closed witness for C8: terminating P0 in the concrete scenario. -/
theorem C8_witness :
    ∃ msg s', terminate_process 0 preTermState = .ok (true, msg, s') ∧
      (s'.processes.getD 0 default).allocation = List.replicate preTermState.resources.length 0 ∧
      (s'.processes.getD 0 default).current_request
        = List.replicate preTermState.resources.length 0 ∧
      (s'.processes.getD 0 default).state = ProcessState.TERMINATED ∧
      ∀ r < preTermState.resources.length,
        (s'.resources.getD r default).available_instances
          = (preTermState.resources.getD r default).total_instances
            - colSum (buildAllocationMatrix s') r :=
  (C8_terminate_postcondition preTermState 0 0 (by decide)
    ⟨by unfold lengthsOk; decide, by unfold cachesCoherent; decide,
     by unfold allocNonneg; decide, by decide⟩).1

lemma demote_state (p : Process) :
    (if p.state = ProcessState.RUNNING ∨ p.state = ProcessState.READY then
       { p with state := ProcessState.WAITING } else p).state
    = (if p.state = ProcessState.RUNNING ∨ p.state = ProcessState.READY then
       ProcessState.WAITING else p.state) := by
  split <;> rfl

/-- C9: `preempt_resources` contract — for a pid present at index `idx`, if
the victim's allocation-matrix entry for `rt` is below `amount`, the call
fails with no snapshot and no state change; otherwise it succeeds returning
the pre-state snapshot taken first, with the victim's allocation entry (both
the cached matrix and the process field) decremented by `amount`, the cached
available vector entry incremented by `amount`, the cached need entry
incremented by `amount`, and a `RUNNING`/`READY` victim demoted to `WAITING`
(other states unchanged). -/
theorem C9_preempt_contract (s : SystemState) (pid : Int) (rt : Nat) (amount : Int)
    (idx : Nat) (hfind : s.processes.findIdx? (fun p => p.pid == pid) = some idx)
    (hCoh : cachesCoherent s) (hlen : lengthsOk s) (hrt : rt < s.resources.length) :
    (((allocation_matrix s).getD idx []).getD rt 0 < amount →
      ∃ msg, preempt_resources pid rt amount s = (false, msg, none, s)) ∧
    (¬ ((allocation_matrix s).getD idx []).getD rt 0 < amount →
      ∃ msg s', preempt_resources pid rt amount s = (true, msg, some (snapshot s), s') ∧
        ((allocation_matrix s').getD idx []).getD rt 0
          = ((allocation_matrix s).getD idx []).getD rt 0 - amount ∧
        (s'.processes.getD idx default).allocation.getD rt 0
          = (s.processes.getD idx default).allocation.getD rt 0 - amount ∧
        (available_vector s').getD rt 0 = (available_vector s).getD rt 0 + amount ∧
        ((need_matrix s').getD idx []).getD rt 0
          = ((need_matrix s).getD idx []).getD rt 0 + amount ∧
        (s'.processes.getD idx default).state
          = (if (s.processes.getD idx default).state = ProcessState.RUNNING ∨
                (s.processes.getD idx default).state = ProcessState.READY then
               ProcessState.WAITING
             else (s.processes.getD idx default).state)) := by
  have hidx : idx < s.processes.length := findIdx?_some_lt hfind
  have hmem : s.processes.getD idx default ∈ s.processes := by
    rw [List.getD_eq_getElem _ _ hidx]
    exact List.getElem_mem hidx
  have hA := allocation_matrix_of_coherent hCoh
  have hV := available_vector_of_coherent hCoh
  have hN := need_matrix_of_coherent hCoh
  have hplen : idx < (allocation_matrix s).length := by
    rw [hA]
    simpa [buildAllocationMatrix] using hidx
  have hrowE : (allocation_matrix s).getD idx []
      = (List.range s.resources.length).map
          (fun j => (s.processes.getD idx default).allocation.getD j 0) := by
    rw [hA, buildAllocationMatrix, getD_map_of_lt _ hidx _ default]
  have hrowlen : rt < ((allocation_matrix s).getD idx []).length := by
    rw [hrowE]
    simpa using hrt
  have hVlen : rt < (available_vector s).length := by
    rw [hV]
    simpa [buildAvailableVector] using hrt
  have hNlen : idx < (need_matrix s).length := by
    rw [hN, matSub]
    simp only [List.length_zipWith, buildMaxDemandMatrix, buildAllocationMatrix,
      List.length_map]
    omega
  have hNrowlen : rt < ((need_matrix s).getD idx []).length := by
    rw [hN, matSub, List.getD_eq_getElem _ _ (by
      simpa only [matSub, List.length_zipWith, buildMaxDemandMatrix,
        buildAllocationMatrix, List.length_map, Nat.min_self] using hidx),
      List.getElem_zipWith]
    simp only [List.length_zipWith, List.length_map]
    simp only [buildMaxDemandMatrix, buildAllocationMatrix]
    rw [List.getElem_map, List.getElem_map]
    simpa using hrt
  have hcrlen : rt < (s.processes.getD idx default).allocation.length := by
    rw [(hlen _ hmem).1]
    exact hrt
  constructor
  · intro hlt
    exact ⟨preemptFailMsg pid (((allocation_matrix s).getD idx []).getD rt 0) rt amount,
      by simp only [preempt_resources, hfind]; rw [if_pos hlt]⟩
  · intro hge
    refine ⟨preemptOkMsg rt amount pid
        (((preemptedState s idx rt amount).processes.getD idx default).allocation.getD rt 0),
      preemptedState s idx rt amount,
      by simp only [preempt_resources, hfind]; rw [if_neg hge], ?_, ?_, ?_, ?_, ?_⟩
    · show (((allocation_matrix s).set idx (((allocation_matrix s).getD idx []).set rt
          (((allocation_matrix s).getD idx []).getD rt 0 - amount))).getD idx []).getD rt 0 = _
      rw [getD_set_self _ hplen, getD_set_self _ hrowlen]
    · show ((s.processes.set idx _).getD idx default).allocation.getD rt 0 = _
      rw [getD_set_self _ (by simpa using hidx)]
      split
      · show ((s.processes.getD idx default).allocation.set rt _).getD rt 0 = _
        rw [getD_set_self _ hcrlen]
      · show ((s.processes.getD idx default).allocation.set rt _).getD rt 0 = _
        rw [getD_set_self _ hcrlen]
    · show (((available_vector s).set rt
          ((available_vector s).getD rt 0 + amount)).getD rt 0) = _
      rw [getD_set_self _ hVlen]
    · show ((((need_matrix s).set idx _).getD idx []).getD rt 0) = _
      rw [getD_set_self _ hNlen, getD_set_self _ hNrowlen]
    · show ((s.processes.set idx _).getD idx default).state = _
      rw [getD_set_self _ (by simpa using hidx), demote_state]

/-- Closed witness for C9 at the concrete scenario (P0 holds 3 of R0;
preempting 2 succeeds, preempting more than held would fail). -/
theorem C9_witness :
    (((allocation_matrix preTermState).getD 0 []).getD 0 0 < 2 →
      ∃ msg, preempt_resources 0 0 2 preTermState = (false, msg, none, preTermState)) ∧
    (¬ ((allocation_matrix preTermState).getD 0 []).getD 0 0 < 2 →
      ∃ msg s', preempt_resources 0 0 2 preTermState
          = (true, msg, some (snapshot preTermState), s') ∧
        ((allocation_matrix s').getD 0 []).getD 0 0
          = ((allocation_matrix preTermState).getD 0 []).getD 0 0 - 2 ∧
        (s'.processes.getD 0 default).allocation.getD 0 0
          = (preTermState.processes.getD 0 default).allocation.getD 0 0 - 2 ∧
        (available_vector s').getD 0 0 = (available_vector preTermState).getD 0 0 + 2 ∧
        ((need_matrix s').getD 0 []).getD 0 0
          = ((need_matrix preTermState).getD 0 []).getD 0 0 + 2 ∧
        (s'.processes.getD 0 default).state
          = (if (preTermState.processes.getD 0 default).state = ProcessState.RUNNING ∨
                (preTermState.processes.getD 0 default).state = ProcessState.READY then
               ProcessState.WAITING
             else (preTermState.processes.getD 0 default).state)) :=
  C9_preempt_contract preTermState 0 0 2 0 (by decide)
    (by unfold cachesCoherent; decide) (by unfold lengthsOk; decide) (by decide)

lemma entries_nonneg_mem {l : List Int} (h : ∀ j : Nat, 0 ≤ l.getD j 0) :
    ∀ x ∈ l, 0 ≤ x := by
  intro x hx
  obtain ⟨n, hn, rfl⟩ := List.mem_iff_getElem.mp hx
  have := h n
  rwa [List.getD_eq_getElem _ _ hn] at this

lemma vecAdd_nonneg {a b : List Int} (ha : ∀ x ∈ a, 0 ≤ x) (hb : ∀ x ∈ b, 0 ≤ x) :
    ∀ x ∈ vecAdd a b, 0 ≤ x := by
  intro x hx
  rw [vecAdd] at hx
  obtain ⟨n, hn, rfl⟩ := List.mem_iff_getElem.mp hx
  have hna : n < a.length := by
    have := hn
    rw [List.length_zipWith] at this
    omega
  have hnb : n < b.length := by
    have := hn
    rw [List.length_zipWith] at this
    omega
  rw [List.getElem_zipWith]
  have := ha _ (List.getElem_mem hna)
  have := hb _ (List.getElem_mem hnb)
  linarith

lemma wfLoop_work_nonneg (m allocM : List (List Int)) (pids : List Int) (idxs : List Nat)
    (hallocM : ∀ i : Nat, ∀ x ∈ allocM.getD i [], 0 ≤ x) :
    ∀ (fuel : Nat) (work : List Int) (finish : List Bool) (seq : List Int),
      (∀ x ∈ work, 0 ≤ x) →
      ∀ x ∈ (wfLoop m allocM pids idxs fuel work finish seq).1, 0 ≤ x := by
  intro fuel
  induction fuel with
  | zero => intro work finish seq hw; simpa [wfLoop] using hw
  | succ n ih =>
    intro work finish seq hw
    rw [wfLoop]
    cases hfind : wfFind m idxs finish work with
    | none => simpa using hw
    | some k =>
      exact ih _ _ _ (vecAdd_nonneg hw (hallocM k))

lemma wfLoop_finish_length (m allocM : List (List Int)) (pids : List Int) (idxs : List Nat) :
    ∀ (fuel : Nat) (work : List Int) (finish : List Bool) (seq : List Int),
      (wfLoop m allocM pids idxs fuel work finish seq).2.1.length = finish.length := by
  intro fuel
  induction fuel with
  | zero => intro work finish seq; simp [wfLoop]
  | succ n ih =>
    intro work finish seq
    rw [wfLoop]
    cases hfind : wfFind m idxs finish work with
    | none => simp
    | some k => rw [ih]; simp

lemma wfLoop_finish_mono (m allocM : List (List Int)) (pids : List Int) (idxs : List Nat) :
    ∀ (fuel : Nat) (work : List Int) (finish : List Bool) (seq : List Int) (i : Nat),
      finish.getD i false = true →
      (wfLoop m allocM pids idxs fuel work finish seq).2.1.getD i false = true := by
  intro fuel
  induction fuel with
  | zero => intro work finish seq i h; simpa [wfLoop] using h
  | succ n ih =>
    intro work finish seq i h
    rw [wfLoop]
    cases hfind : wfFind m idxs finish work with
    | none => simpa using h
    | some k =>
      apply ih
      have hi : i < finish.length := by
        by_contra hcon
        rw [List.getD_eq_default _ _ (Nat.le_of_not_lt hcon)] at h
        exact Bool.false_ne_true h
      by_cases hk : k = i
      · subst hk
        rw [getD_set_self _ hi]
      · rw [getD_set_ne _ hk]
        exact h

lemma filter_length_mono {α : Type} {p q : α → Bool} (hle : ∀ j, q j = true → p j = true) :
    ∀ l : List α, (l.filter q).length ≤ (l.filter p).length := by
  intro l
  induction l with
  | nil => simp
  | cons a t ih =>
    by_cases hqa : q a = true
    · rw [List.filter_cons_of_pos hqa, List.filter_cons_of_pos (hle _ hqa)]
      simpa using ih
    · rw [List.filter_cons_of_neg (by simpa using hqa)]
      by_cases hpa : p a = true
      · rw [List.filter_cons_of_pos hpa]
        exact Nat.le_succ_of_le ih
      · rw [List.filter_cons_of_neg (by simpa using hpa)]
        exact ih

lemma filter_length_strict {α : Type} [DecidableEq α] {p q : α → Bool}
    (hle : ∀ j, q j = true → p j = true) {k : α} (hpk : p k = true) (hqk : q k = false) :
    ∀ l : List α, k ∈ l → (l.filter q).length < (l.filter p).length := by
  intro l
  induction l with
  | nil => simp
  | cons a t ih =>
    intro hk
    rcases List.mem_cons.mp hk with rfl | hk
    · rw [List.filter_cons_of_pos hpk, List.filter_cons_of_neg (by simp [hqk])]
      exact Nat.lt_succ_of_le (filter_length_mono hle t)
    · by_cases hqa : q a = true
      · rw [List.filter_cons_of_pos hqa, List.filter_cons_of_pos (hle _ hqa)]
        simpa using ih hk
      · rw [List.filter_cons_of_neg (by simpa using hqa)]
        by_cases hpa : p a = true
        · rw [List.filter_cons_of_pos hpa]
          exact Nat.lt_succ_of_lt (ih hk)
        · rw [List.filter_cons_of_neg (by simpa using hpa)]
          exact ih hk

/-- With fuel at least the number of unfinished indices, the Work/Finish loop
reaches its fixpoint: no further candidate exists. -/
lemma wfLoop_exit (m allocM : List (List Int)) (pids : List Int) (idxs : List Nat) :
    ∀ (fuel : Nat) (work : List Int) (finish : List Bool) (seq : List Int),
      (idxs.filter (fun i => !(finish.getD i true))).length ≤ fuel →
      wfFind m idxs (wfLoop m allocM pids idxs fuel work finish seq).2.1
        (wfLoop m allocM pids idxs fuel work finish seq).1 = none := by
  intro fuel
  induction fuel with
  | zero =>
    intro work finish seq hcount
    have hnil : idxs.filter (fun i => !(finish.getD i true)) = [] :=
      List.length_eq_zero.mp (Nat.le_zero.mp hcount)
    rw [wfLoop, wfFind]
    apply List.find?_eq_none.mpr
    intro i hi
    have h2 := List.filter_eq_nil.mp hnil i hi
    simp only [Bool.not_eq_true'] at h2
    intro hcontra
    simp only [Bool.and_eq_true, Bool.not_eq_true'] at hcontra
    exact h2 hcontra.1
  | succ n ih =>
    intro work finish seq hcount
    rw [wfLoop]
    cases hfind : wfFind m idxs finish work with
    | none => exact hfind
    | some k =>
      have hkmem : k ∈ idxs := List.mem_of_find?_eq_some hfind
      have hkpred := List.find?_some hfind
      simp only [Bool.and_eq_true, Bool.not_eq_true'] at hkpred
      obtain ⟨hkf, -⟩ := hkpred
      have hklen : k < finish.length := by
        by_contra hcon
        rw [List.getD_eq_default _ _ (Nat.le_of_not_lt hcon)] at hkf
        simp at hkf
      apply ih
      have hstrict : ((idxs.filter (fun i => !((finish.set k true).getD i true))).length
          < (idxs.filter (fun i => !(finish.getD i true))).length) := by
        refine filter_length_strict ?_ ?_ ?_ idxs hkmem
        · intro j hj
          simp only [Bool.not_eq_true'] at hj ⊢
          by_cases hjk : k = j
          · subst hjk
            rw [getD_set_self _ hklen] at hj
            simp at hj
          · rwa [getD_set_ne _ hjk] at hj
        · simp only [Bool.not_eq_true']
          exact hkf
        · simp only [Bool.not_eq_false']
          exact getD_set_self _ hklen _ _
      omega

/-- C6: detection reasons over `Request`, not `Need` — on any well-formed
ledger whose available vector is componentwise nonnegative, a process whose
pending-request row is all zeros is never reported in `deadlocked_pids` and is
not transitioned to `DEADLOCKED` (it is returned unchanged), regardless of its
`Need` row. -/
theorem C6_detect_uses_request_not_need (s : SystemState) (i : Nat)
    (hi : i < s.processes.length) (hCoh : cachesCoherent s) (hNN : allocNonneg s)
    (hAvail : ∀ x ∈ available_vector s, 0 ≤ x)
    (hNodup : (s.processes.map (·.pid)).Nodup)
    (hzero : ∀ j : Nat, (s.processes.getD i default).current_request.getD j 0 = 0) :
    (s.processes.getD i default).pid ∉ (detect_deadlock s).2.1 ∧
    (detect_deadlock s).2.2.processes.getD i default = s.processes.getD i default := by
  have hfl : ∀ (work : List Int) (seq : List Int),
      (wfLoop (request_matrix s) (allocation_matrix s) (s.processes.map (·.pid))
        (List.range s.processes.length) s.processes.length work
        (s.processes.map (fun p =>
          p.state == ProcessState.FINISHED || p.state == ProcessState.TERMINATED)) seq).2.1.length
        = s.processes.length := by
    intro work seq
    rw [wfLoop_finish_length]
    simp
  have hallocNN : ∀ k : Nat, ∀ x ∈ (allocation_matrix s).getD k [], 0 ≤ x := by
    intro k
    rw [allocation_matrix_of_coherent hCoh]
    exact entries_nonneg_mem (fun j => buildAlloc_row_entry_nonneg hNN k j)
  have hcount : ((List.range s.processes.length).filter (fun k =>
      !((s.processes.map (fun p =>
          p.state == ProcessState.FINISHED || p.state == ProcessState.TERMINATED)).getD
        k true))).length ≤ s.processes.length := by
    calc ((List.range s.processes.length).filter _).length
        ≤ (List.range s.processes.length).length := List.length_filter_le _ _
      _ = s.processes.length := List.length_range _
  have hexit := wfLoop_exit (request_matrix s) (allocation_matrix s)
    (s.processes.map (·.pid)) (List.range s.processes.length) s.processes.length
    (available_vector s)
    (s.processes.map (fun p =>
      p.state == ProcessState.FINISHED || p.state == ProcessState.TERMINATED)) [] hcount
  have hwork := wfLoop_work_nonneg (request_matrix s) (allocation_matrix s)
    (s.processes.map (·.pid)) (List.range s.processes.length) hallocNN
    s.processes.length (available_vector s)
    (s.processes.map (fun p =>
      p.state == ProcessState.FINISHED || p.state == ProcessState.TERMINATED)) [] hAvail
  -- the final finish value at index i must be true
  have hreqrow : (request_matrix s).getD i []
      = (List.range s.resources.length).map
          (fun j => (s.processes.getD i default).current_request.getD j 0) := by
    rw [request_matrix_of_coherent hCoh, buildRequestMatrix, getD_map_of_lt _ hi _ default]
  have hrowzero : ∀ x ∈ (request_matrix s).getD i [], x = 0 := by
    intro x hx
    rw [hreqrow] at hx
    obtain ⟨j, -, rfl⟩ := List.mem_map.mp hx
    exact hzero j
  have hfinish : (wfLoop (request_matrix s) (allocation_matrix s)
      (s.processes.map (·.pid)) (List.range s.processes.length) s.processes.length
      (available_vector s)
      (s.processes.map (fun p =>
        p.state == ProcessState.FINISHED || p.state == ProcessState.TERMINATED))
      []).2.1.getD i false = true := by
    by_contra hcon
    have hvecle : vecLe ((request_matrix s).getD i [])
        (wfLoop (request_matrix s) (allocation_matrix s)
          (s.processes.map (·.pid)) (List.range s.processes.length) s.processes.length
          (available_vector s)
          (s.processes.map (fun p =>
            p.state == ProcessState.FINISHED || p.state == ProcessState.TERMINATED))
          []).1 = true := by
      rw [vecLe, List.all_eq_true]
      intro q hq
      obtain ⟨hq1, hq2⟩ := List.of_mem_zip hq
      have h1 : q.1 = 0 := hrowzero _ hq1
      have h2 : 0 ≤ q.2 := hwork _ hq2
      simp only [decide_eq_true_eq]
      rw [h1]
      exact h2
    have hpred := List.find?_eq_none.mp hexit i (by
      rw [List.mem_range]
      exact hi)
    apply hpred
    simp only [Bool.and_eq_true, Bool.not_eq_true']
    constructor
    · rw [getD_irrel (by rw [hfl]; exact hi) true false]
      simpa using hcon
    · exact hvecle
  constructor
  · intro hmem
    simp only [detect_deadlock] at hmem
    obtain ⟨j, hj, hpidj⟩ := List.mem_map.mp hmem
    have hjmem := List.mem_filter.mp hj
    have hjP : j < s.processes.length := List.mem_range.mp hjmem.1
    have hjfin : ¬ ((wfLoop (request_matrix s) (allocation_matrix s)
        (s.processes.map (·.pid)) (List.range s.processes.length) s.processes.length
        (available_vector s)
        (s.processes.map (fun p =>
          p.state == ProcessState.FINISHED || p.state == ProcessState.TERMINATED))
        []).2.1.getD j false = true) := by
      have h5 := hjmem.2
      simp only [Bool.not_eq_true'] at h5
      intro hcc
      rw [h5] at hcc
      exact Bool.false_ne_true hcc
    have hij : j ≠ i := by
      intro hcontra
      subst hcontra
      exact hjfin hfinish
    have hpideq : (s.processes.getD j default).pid = (s.processes.getD i default).pid :=
      hpidj
    rw [List.getD_eq_getElem _ _ hjP, List.getD_eq_getElem _ _ hi] at hpideq
    have hmapj : (s.processes.map (·.pid)).get ⟨j, by simpa using hjP⟩
        = (s.processes.map (·.pid)).get ⟨i, by simpa using hi⟩ := by
      rw [List.get_eq_getElem, List.get_eq_getElem, List.getElem_map, List.getElem_map]
      exact hpideq
    exact hij (congrArg Fin.val ((List.Nodup.get_inj_iff hNodup).mp hmapj))
  · simp only [detect_deadlock]
    rw [getD_map_range _ hi, hfinish]
    simp

/-- Ledger with a zero-request process P0 whose `Need` (4 of R0) far exceeds
`Available` (0), and a stuck process P1 with a pending request. -/
def detectDemo : SystemState :=
  { processes :=
      [{ pid := 0, priority := 1, arrival_step := 0, max_demand := [5],
         allocation := [1], state := ProcessState.READY, current_request := [0] },
       { pid := 1, priority := 2, arrival_step := 0, max_demand := [3],
         allocation := [1], state := ProcessState.WAITING, current_request := [2] }]
    resources := [⟨0,2,0⟩] }

/-- Closed witness for C6: P0 (no pending request, unsatisfiable Need) is not
reported deadlocked and is returned unchanged. -/
theorem C6_witness :
    (detectDemo.processes.getD 0 default).pid ∉ (detect_deadlock detectDemo).2.1 ∧
    (detect_deadlock detectDemo).2.2.processes.getD 0 default
      = detectDemo.processes.getD 0 default :=
  C6_detect_uses_request_not_need detectDemo 0 (by decide)
    (by unfold cachesCoherent; decide) (by unfold allocNonneg; decide)
    (by decide) (by decide) (by intro j; cases j <;> rfl)

/-- Number of processes that are not yet `FINISHED`/`TERMINATED`. -/
def numActive (s : SystemState) : Nat :=
  s.processes.countP
    (fun p => !(p.state == ProcessState.FINISHED || p.state == ProcessState.TERMINATED))

lemma countP_set_balance {α : Type} (p : α → Bool) :
    ∀ (l : List α) (i : Nat) (v : α), i < l.length →
      (l.set i v).countP p + (if p (l.getD i v) = true then 1 else 0)
        = l.countP p + (if p v = true then 1 else 0) := by
  intro l
  induction l with
  | nil => intro i v h; simp at h
  | cons a t ih =>
    intro i v h
    cases i with
    | zero =>
      simp only [List.set, List.getD_cons_zero, List.countP_cons]
      omega
    | succ n =>
      have hn : n < t.length := by simpa using h
      simp only [List.set, List.getD_cons_succ, List.countP_cons]
      have := ih n v hn
      omega

lemma maxByKey_mem (f : Int → Int) : ∀ (xs : List Int) (x : Int), maxByKey f x xs ∈ x :: xs := by
  intro xs
  induction xs with
  | nil => intro x; simp [maxByKey]
  | cons y ys ih =>
    intro x
    rw [maxByKey, List.foldl_cons]
    have h1 := ih (if f y > f x then y else x)
    rw [maxByKey] at h1
    rcases List.mem_cons.mp h1 with h2 | h2
    · rw [h2]
      split
      · exact List.mem_cons_of_mem _ (List.mem_cons_self _ _)
      · exact List.mem_cons_self _ _
    · exact List.mem_cons_of_mem _ (List.mem_cons_of_mem _ h2)

lemma select_victim_priority_mem (dl : List Int) (s : SystemState) (h : dl ≠ []) :
    select_victim dl s "priority" ∈ dl := by
  cases dl with
  | nil => exact absurd rfl h
  | cons x xs =>
    exact maxByKey_mem (get_priority s) xs x

lemma map_congr_idx {α β γ : Type} (f : α → γ) (g : β → γ) {l1 : List α} {l2 : List β}
    (hl : l1.length = l2.length)
    (h : ∀ (j : Nat) (h1 : j < l1.length) (h2 : j < l2.length), f (l1.get ⟨j, h1⟩) = g (l2.get ⟨j, h2⟩)) :
    l1.map f = l2.map g := by
  apply List.ext_getElem
  · simpa using hl
  · intro j hj hj2
    rw [List.getElem_map, List.getElem_map]
    exact h j (by simpa using hj) (by simpa using hj2)

lemma countP_congr_idx {α β : Type} (p : α → Bool) (q : β → Bool) {l1 : List α} {l2 : List β}
    (hl : l1.length = l2.length)
    (h : ∀ (j : Nat) (h1 : j < l1.length) (h2 : j < l2.length),
      p (l1.get ⟨j, h1⟩) = q (l2.get ⟨j, h2⟩)) :
    l1.countP p = l2.countP q := by
  induction l1 generalizing l2 with
  | nil =>
    cases l2 with
    | nil => rfl
    | cons b t2 => simp at hl
  | cons a t1 ih =>
    cases l2 with
    | nil => simp at hl
    | cons b t2 =>
      rw [List.countP_cons, List.countP_cons]
      have hhead := h 0 (by simp) (by simp)
      simp only [List.get] at hhead
      have htail := ih (by simpa using hl) (fun j h1 h2 =>
        by simpa [List.get] using h (j + 1) (by simpa using h1) (by simpa using h2))
      rw [htail, hhead]

lemma pid_unique_getD (s : SystemState) (hNodup : (s.processes.map (·.pid)).Nodup)
    {p : Process} (hp : p ∈ s.processes) {idx : Nat} (hidx : idx < s.processes.length)
    (heq : (s.processes.getD idx default).pid = p.pid) :
    s.processes.getD idx default = p := by
  obtain ⟨k, hk, rfl⟩ := List.mem_iff_getElem.mp hp
  rw [List.getD_eq_getElem _ _ hidx] at heq ⊢
  have hmapeq : (s.processes.map (·.pid)).get ⟨idx, by simpa using hidx⟩
      = (s.processes.map (·.pid)).get ⟨k, by simpa using hk⟩ := by
    rw [List.get_eq_getElem, List.get_eq_getElem, List.getElem_map, List.getElem_map]
    exact heq
  have hik := congrArg Fin.val ((List.Nodup.get_inj_iff hNodup).mp hmapeq)
  subst hik
  rfl

/-- The final Finish vector computed by `detect_deadlock`'s Work/Finish scan. -/
def detectFinish (s : SystemState) : List Bool :=
  (wfLoop (request_matrix s) (allocation_matrix s) (s.processes.map (·.pid))
    (List.range s.processes.length) s.processes.length (available_vector s)
    (s.processes.map (fun p =>
      p.state == ProcessState.FINISHED || p.state == ProcessState.TERMINATED)) []).2.1

lemma detectFinish_length (s : SystemState) :
    (detectFinish s).length = s.processes.length := by
  rw [detectFinish, wfLoop_finish_length]
  simp

lemma detectFinish_mono (s : SystemState) {j : Nat} (hj : j < s.processes.length)
    (hfin : (detectFinish s).getD j false = false) :
    ((s.processes.getD j default).state = ProcessState.FINISHED ∨
     (s.processes.getD j default).state = ProcessState.TERMINATED) → False := by
  intro hstate
  have h0 : (s.processes.map (fun p =>
      p.state == ProcessState.FINISHED || p.state == ProcessState.TERMINATED)).getD j false
      = true := by
    rw [getD_map_of_lt _ hj _ default]
    rcases hstate with h | h <;> rw [h] <;> rfl
  have := wfLoop_finish_mono (request_matrix s) (allocation_matrix s)
    (s.processes.map (·.pid)) (List.range s.processes.length) s.processes.length
    (available_vector s) _ [] j h0
  rw [← detectFinish] at this
  rw [hfin] at this
  exact Bool.false_ne_true this

lemma detect_processes_eq (s : SystemState) :
    (detect_deadlock s).2.2.processes
      = (List.range s.processes.length).map (fun j =>
          if (detectFinish s).getD j false then s.processes.getD j default
          else { s.processes.getD j default with state := ProcessState.DEADLOCKED }) := rfl

lemma detect_resources_eq (s : SystemState) :
    (detect_deadlock s).2.2.resources = s.resources := rfl

lemma detect_dl_eq (s : SystemState) :
    (detect_deadlock s).2.1
      = ((List.range s.processes.length).filter
          (fun j => !(detectFinish s).getD j false)).map
          (fun j => (s.processes.getD j default).pid) := rfl

/-- `detect_deadlock` changes only process states: all numeric data, the
derived matrices, well-formedness, conservation and the active count are
preserved, every reported pid belongs to a (now `DEADLOCKED`) process of the
returned state, and a positive verdict means a nonempty list. -/
lemma detect_spec (s : SystemState)
    (hlen : lengthsOk s) (hCoh : cachesCoherent s) (hNN : allocNonneg s)
    (hCons : assert_resource_conservation s = true)
    (hNodup : (s.processes.map (·.pid)).Nodup) :
    lengthsOk (detect_deadlock s).2.2 ∧
    cachesCoherent (detect_deadlock s).2.2 ∧
    allocNonneg (detect_deadlock s).2.2 ∧
    assert_resource_conservation (detect_deadlock s).2.2 = true ∧
    (detect_deadlock s).2.2.processes.map (·.pid) = s.processes.map (·.pid) ∧
    (detect_deadlock s).2.2.processes.length = s.processes.length ∧
    numActive (detect_deadlock s).2.2 = numActive s ∧
    (∀ pid ∈ (detect_deadlock s).2.1, ∃ p ∈ (detect_deadlock s).2.2.processes,
        p.pid = pid ∧ p.state = ProcessState.DEADLOCKED) ∧
    ((detect_deadlock s).1 = true → (detect_deadlock s).2.1 ≠ []) := by
  have hP2 : (detect_deadlock s).2.2.processes.length = s.processes.length := by
    rw [detect_processes_eq]
    simp
  have hpt : ∀ (j : Nat), j < s.processes.length →
      (detect_deadlock s).2.2.processes.getD j default
        = (if (detectFinish s).getD j false then s.processes.getD j default
           else { s.processes.getD j default with state := ProcessState.DEADLOCKED }) := by
    intro j hj
    rw [detect_processes_eq, getD_map_range _ hj]
  have hmem2 : ∀ p ∈ (detect_deadlock s).2.2.processes, ∃ j, ∃ hj : j < s.processes.length,
      p = (if (detectFinish s).getD j false then s.processes.getD j default
           else { s.processes.getD j default with state := ProcessState.DEADLOCKED }) := by
    intro p hp
    rw [detect_processes_eq] at hp
    obtain ⟨j, hjr, rfl⟩ := List.mem_map.mp hp
    exact ⟨j, List.mem_range.mp hjr, rfl⟩
  have hbuildA : buildAllocationMatrix (detect_deadlock s).2.2 = buildAllocationMatrix s := by
    rw [buildAllocationMatrix, buildAllocationMatrix, detect_resources_eq,
      detect_processes_eq, List.map_map]
    refine map_congr_idx _ _ (by simp) ?_
    intro j h1 h2
    have hj : j < s.processes.length := by simpa using h1
    simp only [Function.comp, List.get_eq_getElem, List.getElem_range]
    rw [← List.getD_eq_getElem s.processes default h2]
    split <;> rfl
  have hbuildM : buildMaxDemandMatrix (detect_deadlock s).2.2 = buildMaxDemandMatrix s := by
    rw [buildMaxDemandMatrix, buildMaxDemandMatrix, detect_resources_eq,
      detect_processes_eq, List.map_map]
    refine map_congr_idx _ _ (by simp) ?_
    intro j h1 h2
    simp only [Function.comp, List.get_eq_getElem, List.getElem_range]
    rw [← List.getD_eq_getElem s.processes default h2]
    split <;> rfl
  have hbuildR : buildRequestMatrix (detect_deadlock s).2.2 = buildRequestMatrix s := by
    rw [buildRequestMatrix, buildRequestMatrix, detect_resources_eq,
      detect_processes_eq, List.map_map]
    refine map_congr_idx _ _ (by simp) ?_
    intro j h1 h2
    simp only [Function.comp, List.get_eq_getElem, List.getElem_range]
    rw [← List.getD_eq_getElem s.processes default h2]
    split <;> rfl
  have hbuildV : buildAvailableVector (detect_deadlock s).2.2 = buildAvailableVector s := by
    rw [buildAvailableVector, buildAvailableVector, detect_resources_eq]
  have hcacheA : (detect_deadlock s).2.2.allocCache = s.allocCache := rfl
  have hcacheM : (detect_deadlock s).2.2.maxCache = s.maxCache := rfl
  have hcacheV : (detect_deadlock s).2.2.availCache = s.availCache := rfl
  have hcacheR : (detect_deadlock s).2.2.requestCache = s.requestCache := rfl
  have hcacheN : (detect_deadlock s).2.2.needCache = s.needCache := rfl
  have hCoh2 : cachesCoherent (detect_deadlock s).2.2 := by
    obtain ⟨h1, h2, h3, h4, h5⟩ := hCoh
    refine ⟨?_, ?_, ?_, ?_, ?_⟩
    · rw [hcacheA, hbuildA]; exact h1
    · rw [hcacheM, hbuildM]; exact h2
    · rw [hcacheV, hbuildV]; exact h3
    · rw [hcacheR, hbuildR]; exact h4
    · rw [hcacheN, hbuildM, hbuildA]; exact h5
  have hAM : allocation_matrix (detect_deadlock s).2.2 = allocation_matrix s := by
    rw [allocation_matrix, allocation_matrix, hcacheA, hbuildA]
  have hAV : available_vector (detect_deadlock s).2.2 = available_vector s := by
    rw [available_vector, available_vector, hcacheV, hbuildV]
  have hassert2 : assert_resource_conservation (detect_deadlock s).2.2 = true := by
    rw [assert_resource_conservation_iff]
    intro r hr
    rw [detect_resources_eq] at hr ⊢
    rw [hAM, hAV]
    exact (assert_resource_conservation_iff s).mp hCons r hr
  have hpid : (detect_deadlock s).2.2.processes.map (·.pid) = s.processes.map (·.pid) := by
    rw [detect_processes_eq, List.map_map]
    refine map_congr_idx _ _ (by simp) ?_
    intro j h1 h2
    simp only [Function.comp, List.get_eq_getElem, List.getElem_range]
    rw [← List.getD_eq_getElem s.processes default h2]
    split <;> rfl
  refine ⟨?_, hCoh2, ?_, hassert2, hpid, hP2, ?_, ?_, ?_⟩
  · intro p hp
    obtain ⟨j, hj, rfl⟩ := hmem2 p hp
    rw [detect_resources_eq]
    have hmemo : s.processes.getD j default ∈ s.processes := by
      rw [List.getD_eq_getElem _ _ hj]
      exact List.getElem_mem hj
    obtain ⟨e1, e2, e3⟩ := hlen _ hmemo
    split <;> exact ⟨e1, e2, e3⟩
  · intro p hp
    obtain ⟨j, hj, rfl⟩ := hmem2 p hp
    have hmemo : s.processes.getD j default ∈ s.processes := by
      rw [List.getD_eq_getElem _ _ hj]
      exact List.getElem_mem hj
    have := hNN _ hmemo
    split <;> exact this
  · rw [numActive, numActive, detect_processes_eq]
    refine countP_congr_idx _ _ (by simp) ?_
    intro j h1 h2
    have hj : j < s.processes.length := by simpa using h1
    simp only [List.get_eq_getElem, List.getElem_map, List.getElem_range]
    rw [← List.getD_eq_getElem s.processes default h2]
    by_cases hfin : (detectFinish s).getD j false = true
    · rw [hfin]
      rfl
    · have hfin' : (detectFinish s).getD j false = false := by
        revert hfin
        cases (detectFinish s).getD j false <;> simp
      rw [hfin']
      have hnf := detectFinish_mono s hj hfin'
      show (!(ProcessState.DEADLOCKED == ProcessState.FINISHED ||
          ProcessState.DEADLOCKED == ProcessState.TERMINATED))
        = !((s.processes.getD j default).state == ProcessState.FINISHED ||
           (s.processes.getD j default).state == ProcessState.TERMINATED)
    
      cases hst : (s.processes.getD j default).state <;> first
        | rfl
        | (exact absurd (by rw [hst]; exact Or.inl rfl) hnf)
        | (exact absurd (by rw [hst]; exact Or.inr rfl) hnf)
  · intro pid hpidmem
    rw [detect_dl_eq] at hpidmem
    obtain ⟨j, hjf, rfl⟩ := List.mem_map.mp hpidmem
    have hjfilter := List.mem_filter.mp hjf
    have hj : j < s.processes.length := List.mem_range.mp hjfilter.1
    have hfin' : (detectFinish s).getD j false = false := by
      have := hjfilter.2
      simp only [Bool.not_eq_true'] at this
      exact this
    refine ⟨(detect_deadlock s).2.2.processes.getD j default, ?_, ?_, ?_⟩
    · rw [List.getD_eq_getElem _ _ (by rw [hP2]; exact hj)]
      exact List.getElem_mem _
    · rw [hpt j hj, hfin']
      rfl
    · rw [hpt j hj, hfin']
      rfl
  · intro hb hnil
    have h1 : (detect_deadlock s).1 = !(detect_deadlock s).2.1.isEmpty := rfl
    rw [h1, hnil] at hb
    simp at hb

/-- `terminate_process` on a well-formed ledger preserves well-formedness and
the pid list, and removes exactly one active process when the victim was
active (its state becomes `TERMINATED`). -/
lemma terminate_wf (s : SystemState) (pid : Int) {idx : Nat}
    (hfind : s.processes.findIdx? (fun p => p.pid == pid) = some idx)
    (hlen : lengthsOk s) (hCoh : cachesCoherent s) (hNN : allocNonneg s)
    (hCons : assert_resource_conservation s = true) :
    ∃ msg s1, terminate_process pid s = .ok (true, msg, s1) ∧
      lengthsOk s1 ∧ cachesCoherent s1 ∧ allocNonneg s1 ∧
      assert_resource_conservation s1 = true ∧
      s1.processes.map (·.pid) = s.processes.map (·.pid) ∧
      s1.processes.length = s.processes.length ∧
      numActive s1 +
        (if (!((s.processes.getD idx default).state == ProcessState.FINISHED ||
            (s.processes.getD idx default).state == ProcessState.TERMINATED)) = true
         then 1 else 0)
        = numActive s := by
  have hidx : idx < s.processes.length := findIdx?_some_lt hfind
  obtain ⟨msg, s1, heq, hprocs, hbuild, hR1, hresD, hassert, hCoh1, hlen1⟩ :=
    terminate_spec s pid hfind hlen hCoh hNN hCons
  have hmemo : s.processes.getD idx default ∈ s.processes := by
    rw [List.getD_eq_getElem _ _ hidx]
    exact List.getElem_mem hidx
  refine ⟨msg, s1, heq, ?_, hCoh1, ?_, hassert, ?_, hlen1, ?_⟩
  · intro p hp
    rw [hprocs] at hp
    rw [hR1]
    rcases List.mem_or_eq_of_mem_set hp with hp2 | hp2
    · exact hlen _ hp2
    · subst hp2
      obtain ⟨-, e2, -⟩ := hlen _ hmemo
      simp only [List.length_replicate]
      exact ⟨e2, e2, e2⟩
  · intro p hp
    rw [hprocs] at hp
    rcases List.mem_or_eq_of_mem_set hp with hp2 | hp2
    · exact hNN _ hp2
    · subst hp2
      intro x hx
      have := List.eq_of_mem_replicate hx
      omega
  · rw [hprocs, List.map_set]
    have hpid1 : ({ s.processes.getD idx default with
        allocation := List.replicate (s.processes.getD idx default).max_demand.length 0,
        current_request := List.replicate (s.processes.getD idx default).max_demand.length 0,
        state := ProcessState.TERMINATED } : Process).pid
        = (s.processes.map (·.pid)).getD idx 0 := by
      rw [getD_map_of_lt _ hidx _ default]
    rw [hpid1, set_getD_self]
  · rw [numActive, numActive, hprocs]
    have hbal2 : (s.processes.set idx
          { s.processes.getD idx default with
            allocation := List.replicate (s.processes.getD idx default).max_demand.length 0,
            current_request := List.replicate (s.processes.getD idx default).max_demand.length 0,
            state := ProcessState.TERMINATED }).countP
          (fun p => !(p.state == ProcessState.FINISHED || p.state == ProcessState.TERMINATED)) +
        (if (!((s.processes.getD idx
            { s.processes.getD idx default with
              allocation := List.replicate (s.processes.getD idx default).max_demand.length 0,
              current_request := List.replicate (s.processes.getD idx default).max_demand.length 0,
              state := ProcessState.TERMINATED }).state == ProcessState.FINISHED ||
          (s.processes.getD idx
            { s.processes.getD idx default with
              allocation := List.replicate (s.processes.getD idx default).max_demand.length 0,
              current_request := List.replicate (s.processes.getD idx default).max_demand.length 0,
              state := ProcessState.TERMINATED }).state == ProcessState.TERMINATED)) = true
         then 1 else 0)
        = s.processes.countP
            (fun p => !(p.state == ProcessState.FINISHED || p.state == ProcessState.TERMINATED))
          + 0 :=
      countP_set_balance _ s.processes idx _ hidx
    have hpred_eq : (s.processes.getD idx
        { s.processes.getD idx default with
          allocation := List.replicate (s.processes.getD idx default).max_demand.length 0,
          current_request := List.replicate (s.processes.getD idx default).max_demand.length 0,
          state := ProcessState.TERMINATED }) = s.processes.getD idx default :=
      getD_irrel hidx _ _
    rw [hpred_eq] at hbal2
    omega

lemma numRecovery_append_le (actions : List String) (x : String) :
    numRecoveryActions (actions ++ [x]) ≤ numRecoveryActions actions + 1 := by
  rw [numRecoveryActions, numRecoveryActions, List.filter_append]
  rw [List.length_append]
  have : (List.filter startsWithRecovery [x]).length ≤ 1 := by
    rw [List.filter_singleton]
    cases hx : startsWithRecovery x <;> simp
  omega

lemma numRecovery_append_nonrec (l : List String) (x : String)
    (hx : startsWithRecovery x = false) :
    numRecoveryActions (l ++ [x]) = numRecoveryActions l := by
  rw [numRecoveryActions, numRecoveryActions, List.filter_append, List.filter_singleton]
  simp [hx]

lemma recoverLoop_count :
    ∀ (fuel : Nat) (remaining : List Int) (s : SystemState) (actions : List String)
      {b : Bool} {acts : List String} {s' : SystemState},
      recoverLoop fuel remaining s actions = some (.ok (b, acts, s')) →
      numRecoveryActions acts ≤ numRecoveryActions actions + fuel := by
  intro fuel
  induction fuel with
  | zero =>
    intro remaining s actions b acts s' h
    simp [recoverLoop] at h
  | succ n ih =>
    intro remaining s actions b acts s' h
    cases remaining with
    | nil =>
      simp only [recoverLoop, Option.some.injEq, Except.ok.injEq, Prod.mk.injEq] at h
      obtain ⟨-, h2, -⟩ := h
      subst h2
      have := numRecovery_append_le actions "All deadlocked processes terminated"
      omega
    | cons x xs =>
      rw [recoverLoop] at h
      cases hterm : terminate_process (select_victim (x :: xs) s "priority") s with
      | error e => rw [hterm] at h; simp at h
      | ok v =>
        obtain ⟨success, message, s1⟩ := v
        rw [hterm] at h
        simp only at h
        by_cases hsucc : success = true
        · subst hsucc
          simp only [Bool.not_true, Bool.false_eq_true, if_false] at h
          by_cases hdet : (detect_deadlock s1).1 = true
          · rw [hdet] at h
            simp only [Bool.not_true, Bool.false_eq_true, if_false] at h
            have := ih _ _ _ h
            have h2 := numRecovery_append_le actions (toString "RECOVERY: " ++ toString message ++ toString "")
            omega
          · have hdet' : (detect_deadlock s1).1 = false := by
              revert hdet
              cases (detect_deadlock s1).1 <;> simp
            rw [hdet'] at h
            simp only [Bool.not_false, if_true, Option.some.injEq, Except.ok.injEq,
              Prod.mk.injEq] at h
            obtain ⟨-, h2, -⟩ := h
            subst h2
            have h3 := numRecovery_append_le actions
              (toString "RECOVERY: " ++ toString message ++ toString "")
            have h4 := numRecovery_append_nonrec
              (actions ++ [toString "RECOVERY: " ++ toString message ++ toString ""])
              "Deadlock resolved - system restored to safe state" (by decide)
            omega
        · have hsucc' : success = false := by
            revert hsucc
            cases success <;> simp
          subst hsucc'
          simp only [Bool.not_false, if_true, Option.some.injEq, Except.ok.injEq,
            Prod.mk.injEq] at h
          obtain ⟨-, h2, -⟩ := h
          subst h2
          have := numRecovery_append_le actions (toString "FAILED: " ++ toString message ++ toString "")
          omega

/-- On a well-formed ledger with distinct pids, if every remaining pid belongs
to a `DEADLOCKED` process of the ledger, the termination loop succeeds whenever
its fuel covers the number of active processes. -/
lemma recoverLoop_ok :
    ∀ (fuel : Nat) (remaining : List Int) (s : SystemState) (actions : List String),
      remaining ≠ [] →
      (∀ pid ∈ remaining, ∃ p ∈ s.processes,
        p.pid = pid ∧ p.state = ProcessState.DEADLOCKED) →
      lengthsOk s → cachesCoherent s → allocNonneg s →
      assert_resource_conservation s = true →
      (s.processes.map (·.pid)).Nodup →
      numActive s ≤ fuel →
      ∃ acts s', recoverLoop fuel remaining s actions = some (.ok (true, acts, s')) := by
  intro fuel
  induction fuel with
  | zero =>
    intro remaining s actions hne hdl hlen hCoh hNN hCons hNodup hfuel
    cases remaining with
    | nil => exact absurd rfl hne
    | cons x xs =>
      obtain ⟨p, hpmem, -, hpstate⟩ := hdl x (List.mem_cons_self x xs)
      have hpos : 0 < numActive s := by
        rw [numActive]
        refine List.countP_pos.mpr ⟨p, hpmem, ?_⟩
        rw [hpstate]
        rfl
      omega
  | succ n ih =>
    intro remaining s actions hne hdl hlen hCoh hNN hCons hNodup hfuel
    cases remaining with
    | nil => exact absurd rfl hne
    | cons x xs =>
      have hvmem : select_victim (x :: xs) s "priority" ∈ x :: xs :=
        select_victim_priority_mem (x :: xs) s (by simp)
      obtain ⟨p, hpmem, hppid, hpstate⟩ := hdl _ hvmem
      have hfindsome : (s.processes.findIdx?
          (fun q => q.pid == select_victim (x :: xs) s "priority")).isSome = true :=
        findIdx?_isSome_of _ s.processes 0
          ⟨p, hpmem, by rw [hppid]; exact beq_self_eq_true _⟩
      obtain ⟨idx, hfind⟩ := Option.isSome_iff_exists.mp hfindsome
      have hidx : idx < s.processes.length := findIdx?_some_lt hfind
      have hpred := findIdx?_pred (fun q => q.pid == select_victim (x :: xs) s "priority")
        default s.processes 0 idx hfind
      rw [Nat.sub_zero] at hpred
      have hpidx : (s.processes.getD idx default).pid = select_victim (x :: xs) s "priority" :=
        by simpa using hpred
      have hgetp : s.processes.getD idx default = p :=
        pid_unique_getD s hNodup hpmem hidx (by rw [hpidx, hppid])
      obtain ⟨msg, s1, hterm, hlen1, hCoh1, hNN1, hCons1, hpid1, hplen1, hbal⟩ :=
        terminate_wf s (select_victim (x :: xs) s "priority") hfind hlen hCoh hNN hCons
      have hcond : (!((s.processes.getD idx default).state == ProcessState.FINISHED ||
          (s.processes.getD idx default).state == ProcessState.TERMINATED)) = true := by
        rw [hgetp, hpstate]
        rfl
      rw [hcond] at hbal
      simp only [if_pos] at hbal
      have hfuel1 : numActive s1 ≤ n := by omega
      have hNodup1 : (s1.processes.map (·.pid)).Nodup := by
        rw [hpid1]
        exact hNodup
      cases hdet : (detect_deadlock s1).1 with
      | false =>
        refine ⟨(actions ++ [toString "RECOVERY: " ++ toString msg ++ toString ""]) ++
            ["Deadlock resolved - system restored to safe state"],
          resetDeadlockedStates (detect_deadlock s1).2.2, ?_⟩
        rw [recoverLoop, hterm]
        simp only [Bool.not_true, Bool.false_eq_true, if_false, hdet, Bool.not_false, if_true]
      | true =>
        obtain ⟨hlen2, hCoh2, hNN2, hCons2, hpid2, hplen2, hact2, hdl2, hne2⟩ :=
          detect_spec s1 hlen1 hCoh1 hNN1 hCons1 hNodup1
        have hNodup2 : ((detect_deadlock s1).2.2.processes.map (·.pid)).Nodup := by
          rw [hpid2]
          exact hNodup1
        have hfuel2 : numActive (detect_deadlock s1).2.2 ≤ n := by
          rw [hact2]
          exact hfuel1
        obtain ⟨acts, s', hrec⟩ := ih (detect_deadlock s1).2.1 (detect_deadlock s1).2.2
          (actions ++ [toString "RECOVERY: " ++ toString msg ++ toString ""])
          (hne2 hdet) hdl2 hlen2 hCoh2 hNN2 hCons2 hNodup2 hfuel2
        refine ⟨acts, s', ?_⟩
        rw [recoverLoop, hterm]
        simp only [Bool.not_true, Bool.false_eq_true, if_false, hdet]
        exact hrec

/-- Two deadlocked processes each holding one unit of the single resource type
(total 2, none available); each has a pending request exceeding what is free,
so detection reports both as deadlocked. -/
def cex7 : SystemState :=
  { processes :=
      [{ pid := 0, priority := 1, arrival_step := 0, max_demand := [2],
         allocation := [1], state := ProcessState.DEADLOCKED, current_request := [1] },
       { pid := 1, priority := 2, arrival_step := 0, max_demand := [3],
         allocation := [1], state := ProcessState.DEADLOCKED, current_request := [2] }]
    resources := [⟨0, 2, 0⟩] }

/-- C7 counterexample: recovering `cex7` with `deadlocked_pids = [0]` (a
nonempty list of pids present in the ledger) succeeds but performs two
victim-termination iterations, exceeding `len(deadlocked_pids) = 1`: after
terminating P0, the re-run of detection reports P1 deadlocked and the loop
continues on the freshly detected set, so the iteration count is not bounded
by the length of the initially supplied list. -/
theorem C7_counterexample :
    ∃ acts s', recover_from_deadlock [0] cex7 "terminate" = some (.ok (true, acts, s')) ∧
      ¬ numRecoveryActions acts ≤ [(0 : Int)].length := by
  refine ⟨["RECOVERY: Terminated P0 (priority=1, holding R0[1])",
    "RECOVERY: Terminated P1 (priority=2, holding R0[1])",
    "Deadlock resolved - system restored to safe state"],
    { processes :=
        [{ pid := 0, priority := 1, arrival_step := 0, max_demand := [2],
           allocation := [0], state := ProcessState.TERMINATED, current_request := [0] },
         { pid := 1, priority := 2, arrival_step := 0, max_demand := [3],
           allocation := [0], state := ProcessState.TERMINATED, current_request := [0] }]
      resources := [⟨0, 2, 2⟩] }, ?_, ?_⟩
  · rfl
  · decide

/-- C7 (amended): for every nonempty `deadlocked_pids` list all of whose pids
belong to `DEADLOCKED` processes of a well-formed ledger with distinct pids,
`recover_from_deadlock` with method `"terminate"` terminates its loop without
exhausting the fuel, returns `success = true`, and performs at most
`len(processes) + 1` victim-termination iterations (the original bound of
`len(deadlocked_pids)` iterations is refuted by the counterexample). -/
theorem C7_recovery_termination (dl : List Int) (s : SystemState)
    (hne : dl ≠ [])
    (hdl : ∀ pid ∈ dl, ∃ p ∈ s.processes, p.pid = pid ∧ p.state = ProcessState.DEADLOCKED)
    (hWF : ledgerWF s)
    (hNodup : (s.processes.map (·.pid)).Nodup) :
    ∃ acts s', recover_from_deadlock dl s "terminate" = some (.ok (true, acts, s')) ∧
      numRecoveryActions acts ≤ s.processes.length + 1 := by
  obtain ⟨hlen, hCoh, hNN, hCons⟩ := hWF
  have hfuel : numActive s ≤ s.processes.length + 1 := by
    have h1 : numActive s ≤ s.processes.length := List.countP_le_length _
    omega
  obtain ⟨acts, s', hrec⟩ := recoverLoop_ok (s.processes.length + 1) dl s []
    hne hdl hlen hCoh hNN hCons hNodup hfuel
  have hcount := recoverLoop_count (s.processes.length + 1) dl s [] hrec
  have hie : dl.isEmpty = false := by
    cases dl with
    | nil => exact absurd rfl hne
    | cons y ys => rfl
  refine ⟨acts, s', ?_, ?_⟩
  · rw [recover_from_deadlock, hie]
    simp only [Bool.false_eq_true, if_false, beq_self_eq_true, if_true]
    exact hrec
  · have h0 : numRecoveryActions [] = 0 := rfl
    omega

/-- Closed witness for the amended C7 bound on the two-process ledger. -/
theorem C7_witness :
    ∃ acts s', recover_from_deadlock [0] cex7 "terminate" = some (.ok (true, acts, s')) ∧
      numRecoveryActions acts ≤ cex7.processes.length + 1 :=
  C7_recovery_termination [0] cex7 (by decide) (by decide)
    (by unfold ledgerWF lengthsOk cachesCoherent allocNonneg; decide) (by decide)
